import Mathlib

/-!
Verification of the workspace-resolution engine of the `prt` repository.

The development shallowly embeds the Go source:
* the version-control operations wrapper (`internal/git`): worktree-list
  parsing, ref matching, and the branch-creation failure classification of
  `WorktreeAddBranch`;
* the workspace resolver (`internal/workspace`): `resolvePersistent`,
  `resolveTemp`, `CleanTemp` and their helpers.

Effectful operations (git subprocess calls, filesystem queries) are modelled
by an oracle environment `GitEnv`: each operation is a pure response function,
and the embedded resolver additionally returns the ordered trace of calls it
issued, so that theorems can speak both about the returned value and about
which external operations were performed.
-/

/-- Errors produced by the git layer.  `branchExists` models an error wrapping
the sentinel `git.ErrBranchExists` (so that `errors.Is(err, ErrBranchExists)`
holds); `generic` models every other error value, carrying its rendered
message. -/
inductive Err where
  | branchExists (msg : String)
  | generic (msg : String)
deriving DecidableEq, Repr

/-- Embeds `errors.Is(err, git.ErrBranchExists)`. -/
def Err.isBranchExists : Err → Bool
  | .branchExists _ => true
  | .generic _ => false

/-- Embeds rendering an error with `%v`. -/
def Err.message : Err → String
  | .branchExists m => m
  | .generic m => m

/-- One parsed entry of `git worktree list --porcelain`
(struct `git.Worktree`). -/
structure Worktree where
  path : String
  branch : String
deriving DecidableEq, Repr

/-- Embeds `github.Repository` (the `WebURL` field is never read by the
resolver and is omitted). -/
structure Repository where
  owner : String
  name : String
  cloneURL : String
deriving DecidableEq, Repr

/-- Embeds `github.PRMetadata` restricted to the fields the resolver reads
(`Title`, `State` and `URL` are display-only). -/
structure PRMetadata where
  number : Nat
  headRef : String
  baseRef : String
  baseRepo : Repository
  headRepo : Repository
deriving DecidableEq, Repr

/-- Embeds the fields of `config.Config` consumed by the resolver. -/
structure Config where
  projectsDir : String
  tempDir : String
deriving DecidableEq, Repr

/-- Embeds `workspace.Result`. -/
structure Result where
  path : String
  repoDir : String
  reused : Bool
  warnings : List String
deriving DecidableEq, Repr

/-- One external operation issued by the resolver: a `GitClient` method call
or a mutating filesystem operation (`os.MkdirAll`, `os.RemoveAll`). -/
inductive Call where
  | isGitRepo (dir : String)
  | clone (url dest : String)
  | cloneBare (url dest : String) (depth : Nat)
  | fetch (dir remote refspec : String)
  | fetchBranch (dir remote branch : String)
  | submoduleUpdate (dir : String)
  | worktreeRemove (dir path : String) (force : Bool)
  | worktreeList (dir : String)
  | originURL (dir : String)
  | addRemote (dir name url : String)
  | hasRemote (dir name : String)
  | setUpstream (dir branch upstream : String)
  | configSet (dir key value : String)
  | configSetWorktree (dir key value : String)
  | worktreeAddBranch (dir path branch start : String) (force : Bool)
  | mkdirAll (path : String)
  | removeAllDir (path : String)
deriving DecidableEq, Repr

/-- One entry returned by `os.ReadDir`. -/
structure DirEntry where
  name : String
  isDir : Bool
deriving DecidableEq, Repr

/-- Outcome of `os.ReadDir`: the not-exist error is distinguished because
`CleanTemp` treats it as an empty scan. -/
inductive ReadDirOut where
  | notExist
  | err (msg : String)
  | ok (entries : List DirEntry)

/-- Oracle environment: pure response functions for every external operation
the resolver can perform.  `now` is the clock read by `cleanBareRepo` and
`statMTime` returns a modification time, `none` modelling a failing
`os.Stat`. -/
structure GitEnv where
  isGitRepo : String → Except Err Bool
  clone : String → String → Except Err Unit
  cloneBare : String → String → Nat → Except Err Unit
  fetch : String → String → String → Except Err Unit
  fetchBranch : String → String → String → Except Err Unit
  submoduleUpdate : String → Except Err Unit
  worktreeRemove : String → String → Bool → Except Err Unit
  worktreeList : String → Except Err (List Worktree)
  originURL : String → Except Err String
  addRemote : String → String → String → Except Err Unit
  hasRemote : String → String → Except Err Bool
  setUpstream : String → String → String → Except Err Unit
  configSet : String → String → String → Except Err Unit
  configSetWorktree : String → String → String → Except Err Unit
  worktreeAddBranch : String → String → String → String → Bool → Except Err Unit
  pathExists : String → Bool
  mkdirAll : String → Except Err Unit
  readDir : String → ReadDirOut
  statMTime : String → Option Int
  removeAllDir : String → Except Err Unit
  now : Int

/-- Embeds `strings.HasPrefix` (character-level, so that terms evaluate
inside the kernel). -/
def strStartsWith (s pre : String) : Bool :=
  pre.data.isPrefixOf s.data

/-- Embeds `strings.HasSuffix`. -/
def strEndsWith (s suf : String) : Bool :=
  suf.data.isSuffixOf s.data

/-- Embeds dropping the first `n` characters of a string
(`strings.TrimPrefix` once the prefix length is known). -/
def strDrop (s : String) (n : Nat) : String :=
  String.mk (s.data.drop n)

/-- Substring search on character lists: does `pat` occur inside `s`? -/
def hasSubstrCh : List Char → List Char → Bool
  | [], pat => pat.isPrefixOf []
  | c :: cs, pat => pat.isPrefixOf (c :: cs) || hasSubstrCh cs pat

/-- Embeds `strings.Contains`. -/
def containsSubstr (s pat : String) : Bool :=
  hasSubstrCh s.data pat.data

/-- Embeds `filepath.Join` for the clean two-component paths the resolver
builds (no duplicate separators, no `.`/`..` cleaning needed). -/
def joinPath (a b : String) : String :=
  if a == "" then b else if b == "" then a else a ++ "/" ++ b

/-- Embeds `strings.ToLower` for the ASCII identifiers the resolver
compares. -/
def toLowerS (s : String) : String :=
  String.mk (s.data.map Char.toLower)

/-- Embeds `strings.EqualFold` for the ASCII identifiers compared by the
resolver. -/
def eqFold (a b : String) : Bool :=
  toLowerS a == toLowerS b

/-! ## Worktree-list parsing (`internal/git`, `parseWorktreeList`) -/

/-- Splitting a character list at every newline; embeds
`strings.SplitSeq(output, "\n")`. -/
def splitLinesCh : List Char → List (List Char)
  | [] => [[]]
  | c :: cs =>
    if c = '\n' then [] :: splitLinesCh cs
    else
      match splitLinesCh cs with
      | [] => [[c]]
      | l :: ls => (c :: l) :: ls

/-- Whitespace trimming at both ends; embeds `strings.TrimSpace` for the
ASCII whitespace that can surround porcelain fields. -/
def trimChars (l : List Char) : List Char :=
  ((l.dropWhile Char.isWhitespace).reverse.dropWhile Char.isWhitespace).reverse

/-- Character form of the literal `"worktree "`. -/
def wtMarker : List Char := "worktree ".data

/-- Character form of the literal `"branch "`. -/
def brMarker : List Char := "branch ".data

/-- Loop body of `parseWorktreeList`: walks the lines keeping the pending
`current` entry, starting a new entry at every `worktree ` line (flushing the
previous one), recording a `branch ` line into the pending entry, and flushing
the final pending entry when the input ends. -/
def parseWTAux : List (List Char) → Option Worktree → List Worktree
  | [], none => []
  | [], some c => [c]
  | l :: ls, cur =>
    if wtMarker.isPrefixOf l then
      let w : Worktree := { path := String.mk (trimChars (l.drop wtMarker.length)), branch := "" }
      match cur with
      | none => parseWTAux ls (some w)
      | some c => c :: parseWTAux ls (some w)
    else if brMarker.isPrefixOf l then
      match cur with
      | some c => parseWTAux ls (some { c with branch := String.mk (trimChars (l.drop brMarker.length)) })
      | none => parseWTAux ls none
    else
      parseWTAux ls cur

/-- Embeds `git.parseWorktreeList`. -/
def parseWorktreeList (output : String) : List Worktree :=
  parseWTAux (splitLinesCh output.data) none

/-! ## Ref matching (`internal/git`, `branchMatches`) -/

/-- Embeds `git.branchMatches`: exact equality, otherwise strip a leading
`refs/heads/` from whichever side has it (the `ref` side first) and compare
the remainder. -/
def branchMatches (ref branch : String) : Bool :=
  if ref == branch then true
  else if strStartsWith ref "refs/heads/" then strDrop ref 11 == branch
  else if strStartsWith branch "refs/heads/" then strDrop branch 11 == ref
  else false

/-- Stripping one leading `refs/heads/` when present: the normalisation that
`branchMatches` applies to each side. -/
def stripRefsHeads (s : String) : String :=
  if strStartsWith s "refs/heads/" then strDrop s 11 else s

/-! ## Branch-creation failure classification
(`internal/git`, `Client.WorktreeAddBranch`) -/

/-- Oracle for the command runner (`git.Runner`): given working directory,
program name and arguments it yields the trimmed combined output together
with `none` on success or `some msg` modelling a non-nil `error`. -/
structure Runner where
  run : String → String → List String → String × Option String

/-- Embeds `git.Client.WorktreeAddBranch`: runs
`git worktree add` with flag `-b` (or `-B`) and, when the run fails with
`forceReset = false` and the output contains `already exists`, returns an
error wrapping `ErrBranchExists`; every other failure is a generic wrapped
error. -/
def WorktreeAddBranchC (r : Runner) (repoDir worktreePath branch startPoint : String)
    (force : Bool) : Except Err Unit :=
  let flag := if force then "-B" else "-b"
  match r.run repoDir "git" ["worktree", "add", flag, branch, worktreePath, startPoint] with
  | (_, none) => Except.ok ()
  | (output, some errMsg) =>
    if !force && containsSubstr output "already exists" then
      Except.error (Err.branchExists ("git worktree add " ++ flag ++ " failed: branch already exists"))
    else
      Except.error (Err.generic ("git worktree add " ++ flag ++ " failed: " ++ errMsg))

/-- Classification of a client result as the typed branch-exists error. -/
def resultIsBranchExists : Except Err Unit → Bool
  | Except.error e => e.isBranchExists
  | Except.ok _ => false

example : parseWorktreeList "worktree /repo\nHEAD 123\nbranch refs/heads/main\n\nworktree /repo-worktrees/pr-15\nbranch refs/heads/pr/15/feature\n" =
    [{ path := "/repo", branch := "refs/heads/main" },
     { path := "/repo-worktrees/pr-15", branch := "refs/heads/pr/15/feature" }] := by decide

example : branchMatches "refs/heads/main" "main" = true := by decide
example : branchMatches "main" "refs/heads/main" = true := by decide
example : branchMatches "refs/heads/other" "main" = false := by decide

/-! ## Workspace resolver: pure helpers (`internal/workspace`) -/

/-- Fuelled loop of the replacement below; every step consumes at least one
character and one unit of fuel, so fuel equal to the input length always
suffices (the `0` case is then unreachable for nonempty input). -/
def replaceFuel (pat rep : List Char) : Nat → List Char → List Char
  | 0, s => s
  | Nat.succ fuel, s =>
    match s with
    | [] => []
    | c :: cs =>
      if pat.isPrefixOf (c :: cs) ∧ pat ≠ [] then
        rep ++ replaceFuel pat rep fuel (cs.drop (pat.length - 1))
      else
        c :: replaceFuel pat rep fuel cs

/-- Leftmost non-overlapping replacement of every occurrence of `pat` by
`rep`; embeds `strings.ReplaceAll` for the non-empty patterns used by
`sanitizeBranch`. -/
def replaceCh (pat rep s : List Char) : List Char :=
  replaceFuel pat rep s.length s

/-- Embeds `strings.ReplaceAll`. -/
def replaceAllS (s pat rep : String) : String :=
  String.mk (replaceCh pat.data rep.data s.data)

/-- Embeds `strings.TrimSpace`. -/
def trimS (s : String) : String :=
  String.mk (trimChars s.data)

/-- Embeds `workspace.sanitizeBranch`. -/
def sanitizeBranch (branch : String) : String :=
  let b := trimS branch
  let b := replaceAllS b "/" "-"
  let b := replaceAllS b " " "-"
  let b := replaceAllS b ".." "-"
  if b == "" then "branch" else b

/-- Embeds `workspace.isCrossRepo`. -/
def isCrossRepo (pr : PRMetadata) : Bool :=
  !(eqFold pr.baseRepo.owner pr.headRepo.owner) || !(eqFold pr.baseRepo.name pr.headRepo.name)

/-- Embeds `workspace.forkRemoteName`. -/
def forkRemoteName (pr : PRMetadata) : String :=
  "prt/" ++ pr.headRepo.owner ++ "/" ++ pr.headRepo.name

/-- Embeds `workspace.branchRefForPR`. -/
def branchRefForPR (pr : PRMetadata) : String :=
  if isCrossRepo pr then "pr/" ++ toString pr.number ++ "/" ++ pr.headRef
  else pr.headRef

/-- Embeds `workspace.remoteRefForPR`. -/
def remoteRefForPR (pr : PRMetadata) : String :=
  if isCrossRepo pr then forkRemoteName pr ++ "/" ++ pr.headRef
  else "origin/" ++ pr.headRef

/-- Embeds `workspace.worktreeName`. -/
def worktreeName (pr : PRMetadata) : String :=
  "pr-" ++ toString pr.number ++ "-" ++ sanitizeBranch pr.headRef

/-- Embeds `workspace.repoSlug`. -/
def repoSlug (repo : Repository) : String :=
  repo.owner ++ "-" ++ repo.name

/-- Embeds `workspace.repoMatchesOrigin`. -/
def repoMatchesOrigin (origin : String) (repo : Repository) : Bool :=
  containsSubstr (toLowerS origin) (toLowerS (repo.owner ++ "/" ++ repo.name))

/-- Remote chosen by `workspace.fetchPR`. -/
def fetchRemoteName (pr : PRMetadata) : String :=
  if isCrossRepo pr then forkRemoteName pr else "origin"

/-- Refspec built by `workspace.fetchPR`. -/
def fetchRefspec (pr : PRMetadata) : String :=
  if isCrossRepo pr then
    "+refs/heads/" ++ pr.headRef ++ ":refs/remotes/" ++ forkRemoteName pr ++ "/" ++ pr.headRef
  else
    "+refs/heads/" ++ pr.headRef ++ ":refs/remotes/origin/" ++ pr.headRef

/-! ## Workspace resolver: effectful operations

Each embedded operation returns its outcome paired with the ordered list of
external calls it issued.  `andThen` sequences two such operations the way Go
propagates a non-nil error: the second runs only when the first succeeded. -/

/-- Sequencing with early error return. -/
def andThen {α β : Type} (x : Except Err α × List Call)
    (f : α → Except Err β × List Call) : Except Err β × List Call :=
  match x with
  | (Except.error e, t) => (Except.error e, t)
  | (Except.ok a, t) => ((f a).1, t ++ (f a).2)

/-- Operation succeeding immediately with no external call. -/
def pureR {α : Type} (a : α) : Except Err α × List Call :=
  (Except.ok a, [])

/-- Operation failing immediately with no external call. -/
def failR {α : Type} (e : Err) : Except Err α × List Call :=
  (Except.error e, [])

/-- Embeds `workspace.resolveRepoDir` (the logger argument only affects
diagnostic output, never the returned directory, and is omitted). -/
def resolveRepoDir (env : GitEnv) (projectsDir : String) (repo : Repository) :
    Except Err String × List Call :=
  let primary := joinPath projectsDir repo.name
  let alternate := joinPath projectsDir (repoSlug repo)
  if env.pathExists primary then
    match env.isGitRepo primary with
    | Except.error e => (Except.error e, [Call.isGitRepo primary])
    | Except.ok isRepo =>
      if isRepo then
        match env.originURL primary with
        | Except.error _ => (Except.ok alternate, [Call.isGitRepo primary, Call.originURL primary])
        | Except.ok origin =>
          if repoMatchesOrigin origin repo then
            (Except.ok primary, [Call.isGitRepo primary, Call.originURL primary])
          else
            (Except.ok alternate, [Call.isGitRepo primary, Call.originURL primary])
      else
        (Except.ok alternate, [Call.isGitRepo primary])
  else
    (Except.ok primary, [])

/-- Embeds `workspace.ensureRepo`. -/
def ensureRepo (env : GitEnv) (repoDir cloneURL : String) :
    Except Err Unit × List Call :=
  if env.pathExists repoDir then
    match env.isGitRepo repoDir with
    | Except.error e => (Except.error e, [Call.isGitRepo repoDir])
    | Except.ok isRepo =>
      if isRepo then
        match env.hasRemote repoDir "origin" with
        | Except.error e => (Except.error e, [Call.isGitRepo repoDir, Call.hasRemote repoDir "origin"])
        | Except.ok hasOrigin =>
          if hasOrigin then
            (Except.ok (), [Call.isGitRepo repoDir, Call.hasRemote repoDir "origin"])
          else
            (env.addRemote repoDir "origin" cloneURL,
             [Call.isGitRepo repoDir, Call.hasRemote repoDir "origin",
              Call.addRemote repoDir "origin" cloneURL])
      else
        (Except.error (Err.generic ("path is not a git repository: " ++ repoDir)),
         [Call.isGitRepo repoDir])
  else
    (env.clone cloneURL repoDir, [Call.clone cloneURL repoDir])

/-- Embeds `workspace.ensureBareRepo`. -/
def ensureBareRepo (env : GitEnv) (bareDir cloneURL : String) :
    Except Err Unit × List Call :=
  andThen
    (if env.pathExists bareDir then
      match env.isGitRepo bareDir with
      | Except.error e => (Except.error e, [Call.isGitRepo bareDir])
      | Except.ok isRepo =>
        if isRepo then (Except.ok (), [Call.isGitRepo bareDir])
        else
          (Except.error (Err.generic ("path is not a git repository: " ++ bareDir)),
           [Call.isGitRepo bareDir])
    else
      (env.cloneBare cloneURL bareDir 0, [Call.cloneBare cloneURL bareDir 0]))
    (fun _ =>
      (env.configSet bareDir "remote.origin.fetch" "+refs/heads/*:refs/remotes/origin/*",
       [Call.configSet bareDir "remote.origin.fetch" "+refs/heads/*:refs/remotes/origin/*"]))

/-- Embeds `workspace.ensureRemote`. -/
def ensureRemote (env : GitEnv) (repoDir name url : String) :
    Except Err Unit × List Call :=
  match env.hasRemote repoDir name with
  | Except.error e => (Except.error e, [Call.hasRemote repoDir name])
  | Except.ok hasRemote =>
    if hasRemote then
      (Except.ok (), [Call.hasRemote repoDir name])
    else
      (env.addRemote repoDir name url,
       [Call.hasRemote repoDir name, Call.addRemote repoDir name url])

/-- Embeds `workspace.fetchPR`. -/
def fetchPR (env : GitEnv) (repoDir : String) (pr : PRMetadata) :
    Except Err Unit × List Call :=
  (env.fetch repoDir (fetchRemoteName pr) (fetchRefspec pr),
   [Call.fetch repoDir (fetchRemoteName pr) (fetchRefspec pr)])

/-- Embeds `git.Client.HasWorktreeForBranch` at the oracle level: list the
worktrees and return the first whose branch reference matches. -/
def hasWorktreeForBranchE (env : GitEnv) (repoDir branch : String) :
    Except Err (String × Bool) × List Call :=
  match env.worktreeList repoDir with
  | Except.error e => (Except.error e, [Call.worktreeList repoDir])
  | Except.ok wts =>
    match wts.find? (fun wt => branchMatches wt.branch branch) with
    | some wt => (Except.ok (wt.path, true), [Call.worktreeList repoDir])
    | none => (Except.ok ("", false), [Call.worktreeList repoDir])

/-- Embeds `workspace.ensureReadyWorktree`. -/
def ensureReadyWorktree (env : GitEnv) (repoDir worktreePath : String) (pr : PRMetadata) :
    Except Err Unit × List Call :=
  andThen
    (env.setUpstream worktreePath (branchRefForPR pr) (remoteRefForPR pr),
     [Call.setUpstream worktreePath (branchRefForPR pr) (remoteRefForPR pr)])
    (fun _ =>
      if isCrossRepo pr then
        andThen
          (env.configSet repoDir "extensions.worktreeConfig" "true",
           [Call.configSet repoDir "extensions.worktreeConfig" "true"])
          (fun _ =>
            (env.configSetWorktree worktreePath "push.default" "upstream",
             [Call.configSetWorktree worktreePath "push.default" "upstream"]))
      else
        pureR ())

/-- Embeds lines 119-130 of `workspace.resolvePersistent`: first attempt with
`force = false`; only a `BranchExists` failure triggers the single force-reset
retry, every other failure is returned unchanged. -/
def worktreeAddChain (env : GitEnv) (repoDir worktreePath branch startPoint : String) :
    Except Err Unit × List Call :=
  match env.worktreeAddBranch repoDir worktreePath branch startPoint false with
  | Except.ok _ =>
    (Except.ok (), [Call.worktreeAddBranch repoDir worktreePath branch startPoint false])
  | Except.error e =>
    if e.isBranchExists then
      (env.worktreeAddBranch repoDir worktreePath branch startPoint true,
       [Call.worktreeAddBranch repoDir worktreePath branch startPoint false,
        Call.worktreeAddBranch repoDir worktreePath branch startPoint true])
    else
      (Except.error e, [Call.worktreeAddBranch repoDir worktreePath branch startPoint false])

/-- Embeds `os.MkdirAll` wrapped as in `resolvePersistent`. -/
def mkdirWorktreeRoot (env : GitEnv) (root : String) : Except Err Unit × List Call :=
  match env.mkdirAll root with
  | Except.error e =>
    (Except.error (Err.generic ("create worktree directory: " ++ e.message)), [Call.mkdirAll root])
  | Except.ok _ => (Except.ok (), [Call.mkdirAll root])

/-- Embeds `os.MkdirAll` wrapped as in `resolveTemp`. -/
def mkdirTempDir (env : GitEnv) (dir : String) : Except Err Unit × List Call :=
  match env.mkdirAll dir with
  | Except.error e =>
    (Except.error (Err.generic ("create temp dir: " ++ e.message)), [Call.mkdirAll dir])
  | Except.ok _ => (Except.ok (), [Call.mkdirAll dir])

/-- Reuse path shared by both strategies (lines 94-102 and 161-169): refresh
fetch and tracking refresh, demoting either failure to a warning. -/
def reuseWorktree (env : GitEnv) (repoDir path : String) (pr : PRMetadata) :
    Except Err Result × List Call :=
  let f := fetchPR env repoDir pr
  let rdy := ensureReadyWorktree env repoDir path pr
  let w1 := match f.1 with
    | Except.error e => ["fetch failed for existing worktree (working offline?): " ++ e.message]
    | Except.ok _ => []
  let w2 := match rdy.1 with
    | Except.error e => ["could not update worktree tracking config: " ++ e.message]
    | Except.ok _ => []
  (Except.ok { path := path, repoDir := repoDir, reused := true, warnings := w1 ++ w2 },
   f.2 ++ rdy.2)

/-- Embeds `workspace.resolvePersistent`. -/
def resolvePersistent (env : GitEnv) (cfg : Config) (pr : PRMetadata) :
    Except Err Result × List Call :=
  andThen (resolveRepoDir env cfg.projectsDir pr.baseRepo) (fun repoDir =>
  andThen (ensureRepo env repoDir pr.baseRepo.cloneURL) (fun _ =>
  andThen
    (if isCrossRepo pr then
      ensureRemote env repoDir (forkRemoteName pr) pr.headRepo.cloneURL
    else pureR ()) (fun _ =>
  andThen (hasWorktreeForBranchE env repoDir (branchRefForPR pr)) (fun found =>
  if found.2 then
    reuseWorktree env repoDir found.1 pr
  else
    andThen (fetchPR env repoDir pr) (fun _ =>
    andThen (mkdirWorktreeRoot env (repoDir ++ "-worktrees")) (fun _ =>
    let worktreePath := joinPath (repoDir ++ "-worktrees") (worktreeName pr)
    if env.pathExists worktreePath then
      failR (Err.generic ("worktree path already exists: " ++ worktreePath))
    else
      andThen (worktreeAddChain env repoDir worktreePath (branchRefForPR pr) (remoteRefForPR pr)) (fun _ =>
      andThen (ensureReadyWorktree env repoDir worktreePath pr) (fun _ =>
      pureR { path := worktreePath, repoDir := repoDir, reused := false, warnings := [] }))))))))

/-- Embeds `workspace.resolveTemp`. -/
def resolveTemp (env : GitEnv) (cfg : Config) (pr : PRMetadata) :
    Except Err Result × List Call :=
  andThen (mkdirTempDir env cfg.tempDir) (fun _ =>
  let slug := repoSlug pr.baseRepo
  let bareDir := joinPath cfg.tempDir (slug ++ ".git")
  andThen (ensureBareRepo env bareDir pr.baseRepo.cloneURL) (fun _ =>
  andThen
    (if isCrossRepo pr then
      ensureRemote env bareDir (forkRemoteName pr) pr.headRepo.cloneURL
    else pureR ()) (fun _ =>
  andThen (hasWorktreeForBranchE env bareDir (branchRefForPR pr)) (fun found =>
  if found.2 then
    reuseWorktree env bareDir found.1 pr
  else
    andThen (fetchPR env bareDir pr) (fun _ =>
    let worktreePath := joinPath cfg.tempDir (slug ++ "-" ++ worktreeName pr)
    if env.pathExists worktreePath then
      failR (Err.generic ("worktree path already exists: " ++ worktreePath))
    else
      andThen
        (env.worktreeAddBranch bareDir worktreePath (branchRefForPR pr) (remoteRefForPR pr) true,
         [Call.worktreeAddBranch bareDir worktreePath (branchRefForPR pr) (remoteRefForPR pr) true])
        (fun _ =>
        andThen (ensureReadyWorktree env bareDir worktreePath pr) (fun _ =>
        pureR { path := worktreePath, repoDir := bareDir, reused := false, warnings := [] })))))))

/-- Embeds `workspace.Resolver.Resolve`. -/
def Resolve (env : GitEnv) (cfg : Config) (pr : PRMetadata) (temp : Bool) :
    Except Err Result × List Call :=
  if temp then resolveTemp env cfg pr else resolvePersistent env cfg pr

/-! ## Temporary-workspace cleanup (`CleanTemp`, `cleanBareRepo`) -/

/-- Removal condition of `cleanBareRepo` for one worktree entry whose path is
not the bare directory: `removeAll`, or the directory's modification time is
at least `ttl` old; a failing `os.Stat` leaves the entry in place. -/
def shouldRemoveWt (env : GitEnv) (ttl : Int) (removeAll : Bool) (wt : Worktree) : Bool :=
  removeAll ||
    match env.statMTime wt.path with
    | some m => decide (env.now - m ≥ ttl)
    | none => false

/-- Worktree loop of `cleanBareRepo` (lines 252-273): walks the listed
worktrees, skips the bare directory itself, records every marked path and, in
live mode, force-removes it.  Returns the marked paths in listing order. -/
def cleanLoop (env : GitEnv) (bareDir : String) (ttl : Int) (removeAll dryRun : Bool) :
    List Worktree → Except Err (List String) × List Call
  | [] => (Except.ok [], [])
  | wt :: rest =>
    if wt.path == bareDir then
      cleanLoop env bareDir ttl removeAll dryRun rest
    else if shouldRemoveWt env ttl removeAll wt then
      if dryRun then
        match cleanLoop env bareDir ttl removeAll dryRun rest with
        | (Except.ok ps, t) => (Except.ok (wt.path :: ps), t)
        | (Except.error e, t) => (Except.error e, t)
      else
        match env.worktreeRemove bareDir wt.path true with
        | Except.error e => (Except.error e, [Call.worktreeRemove bareDir wt.path true])
        | Except.ok _ =>
          match cleanLoop env bareDir ttl removeAll dryRun rest with
          | (Except.ok ps, t) =>
            (Except.ok (wt.path :: ps), Call.worktreeRemove bareDir wt.path true :: t)
          | (Except.error e, t) =>
            (Except.error e, Call.worktreeRemove bareDir wt.path true :: t)
    else
      cleanLoop env bareDir ttl removeAll dryRun rest

/-- Embeds `workspace.cleanBareRepo`: list the worktrees, remove the marked
ones (live mode only), then delete the bare repository directory when every
worktree other than the bare directory itself has been removed. -/
def cleanBareRepo (env : GitEnv) (bareDir : String) (ttl : Int) (removeAll dryRun : Bool) :
    Except Err (List String) × List Call :=
  match env.worktreeList bareDir with
  | Except.error e => (Except.error e, [Call.worktreeList bareDir])
  | Except.ok wts =>
    match cleanLoop env bareDir ttl removeAll dryRun wts with
    | (Except.error e, t) => (Except.error e, Call.worktreeList bareDir :: t)
    | (Except.ok marked, t) =>
      if dryRun then
        (Except.ok marked, Call.worktreeList bareDir :: t)
      else
        let remaining :=
          (wts.filter (fun wt => wt.path != bareDir && !(marked.contains wt.path))).length
        if remaining == 0 then
          match env.removeAllDir bareDir with
          | Except.error e =>
            (Except.error (Err.generic ("remove bare repo: " ++ e.message)),
             Call.worktreeList bareDir :: t ++ [Call.removeAllDir bareDir])
          | Except.ok _ =>
            (Except.ok marked, Call.worktreeList bareDir :: t ++ [Call.removeAllDir bareDir])
        else
          (Except.ok marked, Call.worktreeList bareDir :: t)

/-- Directory loop of `CleanTemp`: every directory entry ending in `.git` is
cleaned as a bare repository; other entries are skipped. -/
def cleanEntriesLoop (env : GitEnv) (tempDir : String) (ttl : Int) (removeAll dryRun : Bool) :
    List DirEntry → Except Err (List String) × List Call
  | [] => (Except.ok [], [])
  | e :: rest =>
    if e.isDir && strEndsWith e.name ".git" then
      match cleanBareRepo env (joinPath tempDir e.name) ttl removeAll dryRun with
      | (Except.error er, t) => (Except.error er, t)
      | (Except.ok ps, t) =>
        match cleanEntriesLoop env tempDir ttl removeAll dryRun rest with
        | (Except.ok ps2, t2) => (Except.ok (ps ++ ps2), t ++ t2)
        | (Except.error er, t2) => (Except.error er, t ++ t2)
    else
      cleanEntriesLoop env tempDir ttl removeAll dryRun rest

/-- Embeds `workspace.Resolver.CleanTemp`. -/
def CleanTemp (env : GitEnv) (tempDir : String) (ttl : Int) (removeAll dryRun : Bool) :
    Except Err (List String) × List Call :=
  match env.readDir tempDir with
  | ReadDirOut.notExist => (Except.ok [], [])
  | ReadDirOut.err m => (Except.error (Err.generic ("read temp dir: " ++ m)), [])
  | ReadDirOut.ok entries => cleanEntriesLoop env tempDir ttl removeAll dryRun entries

/-! ## Current resolver steps absent from the snapshot

The snapshot's `workspace` test suite exercises a base-branch fetch
(`FetchBranch`) and a submodule initialization (`SubmoduleUpdate`) that the
included revision of the resolver does not yet perform, while the git client
already provides both operations.  The two steps are modelled from the spec
below and composed into `resolvePersistentS`, the resolver variant the
affected claims are settled against. -/

/-- Modelled from the spec: step 5 of the persistent strategy attempts the
PR's base branch as well, best-effort — the head refspec fetch is the one
from `fetchPR`, and a base-branch fetch failure is a non-fatal warning.  The
base branch lives in the base repository, so it is fetched from `origin`. -/
def fetchBaseBranch (env : GitEnv) (repoDir : String) (pr : PRMetadata) :
    Except Err Unit × List Call :=
  (env.fetchBranch repoDir "origin" pr.baseRef,
   [Call.fetchBranch repoDir "origin" pr.baseRef])

/-- Modelled from the spec: step 8 runs submodule initialization in the new
worktree after the tracking and push configuration, and a submodule failure
is a non-fatal warning.  Returns the fatal outcome of the configuration steps
together with the submodule warnings. -/
def ensureReadyWorktreeS (env : GitEnv) (repoDir worktreePath : String) (pr : PRMetadata) :
    (Except Err Unit × List String) × List Call :=
  match ensureReadyWorktree env repoDir worktreePath pr with
  | (Except.error e, t) => ((Except.error e, []), t)
  | (Except.ok _, t) =>
    match env.submoduleUpdate worktreePath with
    | Except.error e =>
      ((Except.ok (), ["submodule update failed: " ++ e.message]),
       t ++ [Call.submoduleUpdate worktreePath])
    | Except.ok _ => ((Except.ok (), []), t ++ [Call.submoduleUpdate worktreePath])

/-- Modelled from the spec: the reuse path with the submodule refresh, every
failure demoted to a warning. -/
def reuseWorktreeS (env : GitEnv) (repoDir path : String) (pr : PRMetadata) :
    Except Err Result × List Call :=
  let f := fetchPR env repoDir pr
  let rdy := ensureReadyWorktreeS env repoDir path pr
  let w1 := match f.1 with
    | Except.error e => ["fetch failed for existing worktree (working offline?): " ++ e.message]
    | Except.ok _ => []
  let w2 := match rdy.1.1 with
    | Except.error e => ["could not update worktree tracking config: " ++ e.message]
    | Except.ok _ => []
  (Except.ok { path := path, repoDir := repoDir, reused := true,
               warnings := w1 ++ w2 ++ rdy.1.2 },
   f.2 ++ rdy.2)

/-- Modelled from the spec: the persistent strategy including the best-effort
base-branch fetch (step 5) and the submodule initialization (step 8); the
warning texts follow the snapshot's test suite (`base branch`,
`submodule`). -/
def resolvePersistentS (env : GitEnv) (cfg : Config) (pr : PRMetadata) :
    Except Err Result × List Call :=
  andThen (resolveRepoDir env cfg.projectsDir pr.baseRepo) (fun repoDir =>
  andThen (ensureRepo env repoDir pr.baseRepo.cloneURL) (fun _ =>
  andThen
    (if isCrossRepo pr then
      ensureRemote env repoDir (forkRemoteName pr) pr.headRepo.cloneURL
    else pureR ()) (fun _ =>
  andThen (hasWorktreeForBranchE env repoDir (branchRefForPR pr)) (fun found =>
  if found.2 then
    reuseWorktreeS env repoDir found.1 pr
  else
    andThen (fetchPR env repoDir pr) (fun _ =>
    let base := fetchBaseBranch env repoDir pr
    let wBase := match base.1 with
      | Except.error e => ["base branch fetch failed: " ++ e.message]
      | Except.ok _ => []
    andThen ((Except.ok (), base.2) : Except Err Unit × List Call) (fun _ =>
    andThen (mkdirWorktreeRoot env (repoDir ++ "-worktrees")) (fun _ =>
    let worktreePath := joinPath (repoDir ++ "-worktrees") (worktreeName pr)
    if env.pathExists worktreePath then
      failR (Err.generic ("worktree path already exists: " ++ worktreePath))
    else
      andThen (worktreeAddChain env repoDir worktreePath (branchRefForPR pr) (remoteRefForPR pr)) (fun _ =>
      match ensureReadyWorktreeS env repoDir worktreePath pr with
      | ((Except.error e, _), t) => (Except.error e, t)
      | ((Except.ok _, wSub), t) =>
        (Except.ok { path := worktreePath, repoDir := repoDir, reused := false,
                     warnings := wBase ++ wSub }, t)))))))))

/-! ## Concrete scenario material for the end-to-end claims -/

/-- Base repository `octo/repo` used by the concrete scenarios. -/
def octoRepo : Repository :=
  { owner := "octo", name := "repo", cloneURL := "https://github.com/octo/repo.git" }

/-- Fork repository `fork/repo` used by the cross-repo scenarios. -/
def forkRepo : Repository :=
  { owner := "fork", name := "repo", cloneURL := "https://github.com/fork/repo.git" }

/-- Same-repo PR number 15 with head ref `feature`. -/
def pr15 : PRMetadata :=
  { number := 15, headRef := "feature", baseRef := "main",
    baseRepo := octoRepo, headRepo := octoRepo }

/-- Cross-repo PR number 21 with head ref `fix/bug` from `fork/repo`. -/
def pr21 : PRMetadata :=
  { number := 21, headRef := "fix/bug", baseRef := "main",
    baseRepo := octoRepo, headRepo := forkRepo }

/-- Configuration with a projects directory and a temp directory. -/
def cfgC : Config := { projectsDir := "projects", tempDir := "tmp" }

/-- Oracle for a fresh machine: no path exists yet, every git operation
succeeds, listings are empty. -/
def freshEnv : GitEnv where
  isGitRepo := fun _ => Except.ok true
  clone := fun _ _ => Except.ok ()
  cloneBare := fun _ _ _ => Except.ok ()
  fetch := fun _ _ _ => Except.ok ()
  fetchBranch := fun _ _ _ => Except.ok ()
  submoduleUpdate := fun _ => Except.ok ()
  worktreeRemove := fun _ _ _ => Except.ok ()
  worktreeList := fun _ => Except.ok []
  originURL := fun _ => Except.ok ""
  addRemote := fun _ _ _ => Except.ok ()
  hasRemote := fun _ _ => Except.ok false
  setUpstream := fun _ _ _ => Except.ok ()
  configSet := fun _ _ _ => Except.ok ()
  configSetWorktree := fun _ _ _ => Except.ok ()
  worktreeAddBranch := fun _ _ _ _ _ => Except.ok ()
  pathExists := fun _ => false
  mkdirAll := fun _ => Except.ok ()
  readDir := fun _ => ReadDirOut.ok []
  statMTime := fun _ => none
  removeAllDir := fun _ => Except.ok ()
  now := 0

/-- C1: end-to-end same-repo resolve on a fresh projects directory: the base
repository is cloned to `projects/repo`, exactly the refspec
`+refs/heads/feature:refs/remotes/origin/feature` is fetched from `origin`,
the worktree is created at `projects/repo-worktrees/pr-15-feature` with new
branch `feature` starting from `origin/feature`, upstream tracking of
`feature` is set to `origin/feature`, and that worktree path is returned with
`reused = false`. -/
theorem resolve_same_repo_fresh_c1 :
    Resolve freshEnv cfgC pr15 false =
      (Except.ok { path := "projects/repo-worktrees/pr-15-feature",
                   repoDir := "projects/repo", reused := false, warnings := [] },
       [Call.clone "https://github.com/octo/repo.git" "projects/repo",
        Call.worktreeList "projects/repo",
        Call.fetch "projects/repo" "origin" "+refs/heads/feature:refs/remotes/origin/feature",
        Call.mkdirAll "projects/repo-worktrees",
        Call.worktreeAddBranch "projects/repo" "projects/repo-worktrees/pr-15-feature"
          "feature" "origin/feature" false,
        Call.setUpstream "projects/repo-worktrees/pr-15-feature" "feature" "origin/feature"]) := by
  rfl

/-- Oracle like `freshEnv` except that the fork remote `prt/fork/repo` is
already configured (with a user-customised URL the resolver must not touch). -/
def forkPresentEnv : GitEnv :=
  { freshEnv with hasRemote := fun _ name => Except.ok (name == "prt/fork/repo") }

/-- C4: end-to-end cross-repo resolve for base `octo/repo`, head `fork/repo`,
head ref `fix/bug`, number 21.  When the fork remote is absent it is added
under the name `prt/fork/repo`; when it is already present no remote-add call
is made at all (the existing URL is untouched).  In both runs the branch is
named `pr/21/fix/bug`, the worktree-add start point is
`prt/fork/repo/fix/bug`, and the configuration calls set repository-level
`extensions.worktreeConfig=true` and worktree-scoped `push.default=upstream`. -/
theorem resolve_cross_repo_c4 :
    Resolve freshEnv cfgC pr21 false =
      (Except.ok { path := "projects/repo-worktrees/pr-21-fix-bug",
                   repoDir := "projects/repo", reused := false, warnings := [] },
       [Call.clone "https://github.com/octo/repo.git" "projects/repo",
        Call.hasRemote "projects/repo" "prt/fork/repo",
        Call.addRemote "projects/repo" "prt/fork/repo" "https://github.com/fork/repo.git",
        Call.worktreeList "projects/repo",
        Call.fetch "projects/repo" "prt/fork/repo"
          "+refs/heads/fix/bug:refs/remotes/prt/fork/repo/fix/bug",
        Call.mkdirAll "projects/repo-worktrees",
        Call.worktreeAddBranch "projects/repo" "projects/repo-worktrees/pr-21-fix-bug"
          "pr/21/fix/bug" "prt/fork/repo/fix/bug" false,
        Call.setUpstream "projects/repo-worktrees/pr-21-fix-bug" "pr/21/fix/bug"
          "prt/fork/repo/fix/bug",
        Call.configSet "projects/repo" "extensions.worktreeConfig" "true",
        Call.configSetWorktree "projects/repo-worktrees/pr-21-fix-bug" "push.default"
          "upstream"])
    ∧
    Resolve forkPresentEnv cfgC pr21 false =
      (Except.ok { path := "projects/repo-worktrees/pr-21-fix-bug",
                   repoDir := "projects/repo", reused := false, warnings := [] },
       [Call.clone "https://github.com/octo/repo.git" "projects/repo",
        Call.hasRemote "projects/repo" "prt/fork/repo",
        Call.worktreeList "projects/repo",
        Call.fetch "projects/repo" "prt/fork/repo"
          "+refs/heads/fix/bug:refs/remotes/prt/fork/repo/fix/bug",
        Call.mkdirAll "projects/repo-worktrees",
        Call.worktreeAddBranch "projects/repo" "projects/repo-worktrees/pr-21-fix-bug"
          "pr/21/fix/bug" "prt/fork/repo/fix/bug" false,
        Call.setUpstream "projects/repo-worktrees/pr-21-fix-bug" "pr/21/fix/bug"
          "prt/fork/repo/fix/bug",
        Call.configSet "projects/repo" "extensions.worktreeConfig" "true",
        Call.configSetWorktree "projects/repo-worktrees/pr-21-fix-bug" "push.default"
          "upstream"]) := by
  exact ⟨rfl, rfl⟩

/-! ## Ref-matching symmetry (C8) -/

/-- Boolean equality on strings is symmetric. -/
theorem beq_comm_str (a b : String) : (a == b) = (b == a) := by
  rcases eq_or_ne a b with h | h
  · subst h; rfl
  · rw [beq_eq_false_iff_ne.mpr h, beq_eq_false_iff_ne.mpr (Ne.symm h)]

/-- C8 counterexample: `branchMatches` is not symmetric on all strings — when
both arguments carry the `refs/heads/` prefix and one is the prefixing of the
other, the two argument orders disagree. -/
theorem branchMatches_symmetry_c8_counterexample :
    branchMatches "refs/heads/refs/heads/x" "refs/heads/x" = true ∧
    branchMatches "refs/heads/x" "refs/heads/refs/heads/x" = false := by
  decide

/-- C8 amended: `branchMatches` is symmetric whenever at most one of the two
arguments starts with `refs/heads/`, and in that case the arguments match
exactly when they are equal after stripping the prefix from the side that has
it; the concrete examples of the specification hold. -/
theorem branchMatches_partial_symmetry_c8 :
    (∀ a b : String,
      ¬(strStartsWith a "refs/heads/" = true ∧ strStartsWith b "refs/heads/" = true) →
      branchMatches a b = branchMatches b a ∧
      branchMatches a b = (stripRefsHeads a == stripRefsHeads b)) ∧
    branchMatches "refs/heads/main" "main" = true ∧
    branchMatches "main" "refs/heads/main" = true ∧
    branchMatches "refs/heads/pr/1/branch" "pr/1/branch" = true ∧
    branchMatches "refs/heads/other" "main" = false := by
  refine ⟨?_, by decide, by decide, by decide, by decide⟩
  intro a b h
  by_cases ha : strStartsWith a "refs/heads/" = true <;>
    by_cases hb : strStartsWith b "refs/heads/" = true
  · exact absurd ⟨ha, hb⟩ h
  · have hb' : strStartsWith b "refs/heads/" = false := by
      simpa using hb
    have hne : a ≠ b := by
      intro e; rw [e, hb'] at ha; cases ha
    rw [branchMatches, branchMatches, stripRefsHeads, stripRefsHeads,
      beq_eq_false_iff_ne.mpr hne, beq_eq_false_iff_ne.mpr (Ne.symm hne)]
    simp [ha, hb']
  · have ha' : strStartsWith a "refs/heads/" = false := by
      simpa using ha
    have hne : a ≠ b := by
      intro e; rw [← e, ha'] at hb; cases hb
    rw [branchMatches, branchMatches, stripRefsHeads, stripRefsHeads,
      beq_eq_false_iff_ne.mpr hne, beq_eq_false_iff_ne.mpr (Ne.symm hne)]
    simp [ha', hb, beq_comm_str a]
  · have ha' : strStartsWith a "refs/heads/" = false := by
      simpa using ha
    have hb' : strStartsWith b "refs/heads/" = false := by
      simpa using hb
    have hba : (b == a) = (a == b) := beq_comm_str b a
    rw [branchMatches, branchMatches, stripRefsHeads, stripRefsHeads, hba]
    cases hab : (a == b) <;> simp [ha', hb', hab]

/-- C8 witness: the amended statement applied at `refs/heads/main` / `main`. -/
theorem branchMatches_partial_symmetry_c8_witness :
    branchMatches "refs/heads/main" "main" = branchMatches "main" "refs/heads/main" ∧
    branchMatches "refs/heads/main" "main" =
      (stripRefsHeads "refs/heads/main" == stripRefsHeads "main") :=
  branchMatches_partial_symmetry_c8.1 "refs/heads/main" "main" (by decide)

/-! ## Branch-exists classification and the single retry (C3) -/

/-- C3: a failing `git worktree add -b` (no force-reset) is classified as the
typed `BranchExists` error exactly when the tool output contains
`already exists` (any other failure is an error but never `BranchExists`);
and in the resolver, a `BranchExists` failure of the first creation attempt
triggers exactly one force-reset retry, a successful first attempt makes
exactly one call, and every other failure is returned fatally with no second
call. -/
theorem worktree_add_branch_classify_retry_c3 :
    (∀ (r : Runner) (dir path br st out em : String),
      r.run dir "git" ["worktree", "add", "-b", br, path, st] = (out, some em) →
      resultIsBranchExists (WorktreeAddBranchC r dir path br st false) =
        containsSubstr out "already exists" ∧
      ∃ e, WorktreeAddBranchC r dir path br st false = Except.error e)
    ∧
    (∀ (env : GitEnv) (dir path br st : String),
      (env.worktreeAddBranch dir path br st false = Except.ok () →
        worktreeAddChain env dir path br st =
          (Except.ok (), [Call.worktreeAddBranch dir path br st false])) ∧
      (∀ e : Err, env.worktreeAddBranch dir path br st false = Except.error e →
        (e.isBranchExists = true →
          worktreeAddChain env dir path br st =
            (env.worktreeAddBranch dir path br st true,
             [Call.worktreeAddBranch dir path br st false,
              Call.worktreeAddBranch dir path br st true])) ∧
        (e.isBranchExists = false →
          worktreeAddChain env dir path br st =
            (Except.error e, [Call.worktreeAddBranch dir path br st false])))) := by
  constructor
  · intro r dir path br st out em hrun
    simp only [WorktreeAddBranchC, Bool.not_false, Bool.true_and, Bool.false_eq_true,
      if_false]
    rw [hrun]
    cases hc : containsSubstr out "already exists" <;>
      simp [resultIsBranchExists, Err.isBranchExists, hc]
  · intro env dir path br st
    constructor
    · intro hok
      rw [worktreeAddChain, hok]
    · intro e he
      constructor
      · intro hbe
        rw [worktreeAddChain, he]
        simp [hbe]
      · intro hbe
        rw [worktreeAddChain, he]
        simp [hbe]

/-- Runner whose `git worktree add` fails reporting an existing branch. -/
def staleRunner : Runner :=
  { run := fun _ _ _ => ("fatal: a branch named 'feature' already exists", some "exit status 128") }

/-- Oracle whose first (non-force) branch creation fails with the typed
branch-exists error and whose force-reset creation succeeds. -/
def staleBranchEnv : GitEnv :=
  { freshEnv with
    worktreeAddBranch := fun _ _ _ _ force =>
      if force then Except.ok ()
      else Except.error (Err.branchExists "git worktree add -b failed: branch already exists") }

/-- C3 witness: the classification and the retry policy applied at concrete
inputs. -/
theorem worktree_add_branch_classify_retry_c3_witness :
    (resultIsBranchExists (WorktreeAddBranchC staleRunner "repo" "wt" "feature" "origin/feature" false) =
       containsSubstr "fatal: a branch named 'feature' already exists" "already exists" ∧
     ∃ e, WorktreeAddBranchC staleRunner "repo" "wt" "feature" "origin/feature" false =
       Except.error e) ∧
    worktreeAddChain staleBranchEnv "repo" "wt" "feature" "origin/feature" =
      (staleBranchEnv.worktreeAddBranch "repo" "wt" "feature" "origin/feature" true,
       [Call.worktreeAddBranch "repo" "wt" "feature" "origin/feature" false,
        Call.worktreeAddBranch "repo" "wt" "feature" "origin/feature" true]) :=
  ⟨worktree_add_branch_classify_retry_c3.1 staleRunner "repo" "wt" "feature" "origin/feature"
      "fatal: a branch named 'feature' already exists" "exit status 128" rfl,
   ((worktree_add_branch_classify_retry_c3.2 staleBranchEnv "repo" "wt" "feature"
      "origin/feature").2
      (Err.branchExists "git worktree add -b failed: branch already exists") rfl).1 rfl⟩

/-! ## Worktree-list parsing round trip (C7) -/

/-- One well-formed input group: a `worktree <path>` line optionally followed
by a `branch <ref>` line. -/
structure WTGroup where
  path : String
  branch : Option String

/-- Entry the parser is expected to produce for a group: the group's path,
and its branch when present, the empty string otherwise. -/
def groupEntry (g : WTGroup) : Worktree :=
  { path := g.path, branch := g.branch.getD "" }

/-- Lines of one rendered group. -/
def groupLines (g : WTGroup) : List (List Char) :=
  ("worktree " ++ g.path).data ::
    (match g.branch with
     | some b => [("branch " ++ b).data]
     | none => [])

/-- Lines of a rendered group sequence, groups separated by one blank line
and, deliberately, no blank line after the final group. -/
def groupsLines : List WTGroup → List (List Char)
  | [] => []
  | [g] => groupLines g
  | g :: gs => groupLines g ++ ([] :: groupsLines gs)

/-- Joining lines with newline separators. -/
def joinLines : List (List Char) → List Char
  | [] => []
  | [l] => l
  | l :: ls => l ++ '\n' :: joinLines ls

/-- The rendered input string of a group sequence. -/
def renderGroups (gs : List WTGroup) : String :=
  String.mk (joinLines (groupsLines gs))

/-- Absence of newline characters in a field value. -/
def noNewline (s : String) : Bool :=
  s.data.all (fun c => !(c == '\n'))

/-- Well-formedness of a group: field values contain no newline and carry no
surrounding whitespace (the parser trims each field, so a value with
surrounding whitespace could not round-trip verbatim). -/
def WFGroup (g : WTGroup) : Bool :=
  noNewline g.path && (trimChars g.path.data == g.path.data) &&
    (match g.branch with
     | some b => noNewline b && (trimChars b.data == b.data)
     | none => true)

theorem splitLinesCh_ne_nil (l : List Char) : splitLinesCh l ≠ [] := by
  induction l with
  | nil => simp [splitLinesCh]
  | cons c cs ih =>
    rw [splitLinesCh]
    by_cases hc : c = '\n'
    · simp [hc]
    · simp only [hc, if_false]
      cases h : splitLinesCh cs with
      | nil => simp
      | cons a as => simp

theorem splitLinesCh_no_nl (l : List Char) (h : ∀ c ∈ l, c ≠ '\n') :
    splitLinesCh l = [l] := by
  induction l with
  | nil => rfl
  | cons c cs ih =>
    have hc : c ≠ '\n' := h c (by simp)
    have hcs : splitLinesCh cs = [cs] := ih (fun x hm => h x (by simp [hm]))
    simp [splitLinesCh, hc, hcs]

theorem splitLinesCh_append (l t : List Char) (h : ∀ c ∈ l, c ≠ '\n') :
    splitLinesCh (l ++ '\n' :: t) = l :: splitLinesCh t := by
  induction l with
  | nil => simp [splitLinesCh]
  | cons c cs ih =>
    have hc : c ≠ '\n' := h c (by simp)
    have ht := ih (fun x hm => h x (by simp [hm]))
    simp [splitLinesCh, hc, ht]

theorem splitLines_join (ls : List (List Char)) (hne : ls ≠ [])
    (h : ∀ l ∈ ls, ∀ c ∈ l, c ≠ '\n') : splitLinesCh (joinLines ls) = ls := by
  induction ls with
  | nil => exact absurd rfl hne
  | cons l rest ih =>
    cases rest with
    | nil => simpa [joinLines] using splitLinesCh_no_nl l (h l (by simp))
    | cons l2 rest2 =>
      have h1 : ∀ c ∈ l, c ≠ '\n' := h l (by simp)
      have h2 : ∀ x ∈ l2 :: rest2, ∀ c ∈ x, c ≠ '\n' := fun x hm => h x (by simp [hm])
      rw [joinLines, splitLinesCh_append l _ h1, ih (List.cons_ne_nil _ _) h2]
      exact List.cons_ne_nil _ _

theorem isPrefixOf_self_append (l t : List Char) : l.isPrefixOf (l ++ t) = true := by
  induction l with
  | nil => simp [List.isPrefixOf]
  | cons c cs ih => simp [List.isPrefixOf, ih]

theorem strMk_data (s : String) : String.mk s.data = s := rfl

theorem wt_isPrefix_wtLine (p : String) :
    wtMarker.isPrefixOf (("worktree " ++ p).data) = true := by
  rw [String.data_append]
  exact isPrefixOf_self_append _ _

theorem wt_drop_wtLine (p : String) :
    (("worktree " ++ p).data).drop wtMarker.length = p.data := by
  rw [String.data_append]
  exact List.drop_left _ _

theorem br_isPrefix_brLine (b : String) :
    brMarker.isPrefixOf (("branch " ++ b).data) = true := by
  rw [String.data_append]
  exact isPrefixOf_self_append _ _

theorem br_drop_brLine (b : String) :
    (("branch " ++ b).data).drop brMarker.length = b.data := by
  rw [String.data_append]
  exact List.drop_left _ _

theorem wt_not_prefix_brLine (b : String) :
    wtMarker.isPrefixOf (("branch " ++ b).data) = false := by
  rw [String.data_append]
  rfl

theorem wt_not_prefix_blank : wtMarker.isPrefixOf ([] : List Char) = false := rfl

theorem br_not_prefix_blank : brMarker.isPrefixOf ([] : List Char) = false := rfl

theorem WFGroup_path_trim {g : WTGroup} (h : WFGroup g = true) :
    trimChars g.path.data = g.path.data := by
  simp only [WFGroup, Bool.and_eq_true, beq_iff_eq] at h
  exact h.1.2

theorem WFGroup_path_nl {g : WTGroup} (h : WFGroup g = true) :
    ∀ c ∈ g.path.data, c ≠ '\n' := by
  simp only [WFGroup, Bool.and_eq_true, beq_iff_eq] at h
  have := h.1.1
  simp only [noNewline, List.all_eq_true, Bool.not_eq_eq_eq_not, Bool.not_true,
    beq_eq_false_iff_ne] at this
  exact this

theorem WFGroup_branch_trim {g : WTGroup} {b : String} (h : WFGroup g = true)
    (hb : g.branch = some b) : trimChars b.data = b.data := by
  simp only [WFGroup, hb, Bool.and_eq_true, beq_iff_eq] at h
  exact h.2.2

theorem WFGroup_branch_nl {g : WTGroup} {b : String} (h : WFGroup g = true)
    (hb : g.branch = some b) : ∀ c ∈ b.data, c ≠ '\n' := by
  simp only [WFGroup, hb, Bool.and_eq_true, beq_iff_eq] at h
  have := h.2.1
  simp only [noNewline, List.all_eq_true, Bool.not_eq_eq_eq_not, Bool.not_true,
    beq_eq_false_iff_ne] at this
  exact this

theorem parseWTAux_group (g : WTGroup) (ls : List (List Char)) (cur : Option Worktree)
    (h : WFGroup g = true) :
    parseWTAux (groupLines g ++ ls) cur =
      cur.toList ++ parseWTAux ls (some (groupEntry g)) := by
  have hpw : wtMarker <+:
      ('w' :: 'o' :: 'r' :: 'k' :: 't' :: 'r' :: 'e' :: 'e' :: ' ' :: g.path.data) := ⟨g.path.data, rfl⟩
  have hdw : List.drop wtMarker.length
      ('w' :: 'o' :: 'r' :: 'k' :: 't' :: 'r' :: 'e' :: 'e' :: ' ' :: g.path.data) = g.path.data := rfl
  cases hb : g.branch with
  | none =>
    have hentry : groupEntry g = { path := g.path, branch := "" } := by
      simp [groupEntry, hb]
    rw [groupLines, hb]
    simp only [List.cons_append, List.nil_append]
    cases cur <;>
      simp [parseWTAux, hpw, hdw, WFGroup_path_trim h, strMk_data, hentry]
  | some b =>
    have hentry : groupEntry g = { path := g.path, branch := b } := by
      simp [groupEntry, hb]
    have hpb : brMarker <+:
        ('b' :: 'r' :: 'a' :: 'n' :: 'c' :: 'h' :: ' ' :: b.data) := ⟨b.data, rfl⟩
    have hdb : List.drop brMarker.length
        ('b' :: 'r' :: 'a' :: 'n' :: 'c' :: 'h' :: ' ' :: b.data) = b.data := rfl
    have hnwb : ¬ (wtMarker <+: ('b' :: 'r' :: 'a' :: 'n' :: 'c' :: 'h' :: ' ' :: b.data)) := by
      rintro ⟨t, ht⟩
      simp [wtMarker] at ht
    rw [groupLines, hb]
    simp only [List.cons_append, List.nil_append]
    cases cur <;>
      simp [parseWTAux, hpw, hdw, hpb, hdb, hnwb, WFGroup_path_trim h,
        WFGroup_branch_trim h hb, strMk_data, hentry]

theorem parseWTAux_blank (ls : List (List Char)) (cur : Option Worktree) :
    parseWTAux ([] :: ls) cur = parseWTAux ls cur := by
  simp [parseWTAux, wt_not_prefix_blank, br_not_prefix_blank]

theorem parseWTAux_groups (gs : List WTGroup) (h : ∀ g ∈ gs, WFGroup g = true) :
    ∀ cur : Option Worktree,
      parseWTAux (groupsLines gs) cur = cur.toList ++ gs.map groupEntry := by
  induction gs with
  | nil => intro cur; cases cur <;> simp [groupsLines, parseWTAux]
  | cons g rest ih =>
    intro cur
    have hg := h g (by simp)
    cases rest with
    | nil =>
      have : groupsLines [g] = groupLines g ++ [] := by simp [groupsLines]
      rw [this, parseWTAux_group g [] cur hg]
      cases hcur : cur <;> simp [parseWTAux]
    | cons g2 rest2 =>
      have hrest : ∀ x ∈ g2 :: rest2, WFGroup x = true := fun x hm => h x (by simp [hm])
      have hgl : groupsLines (g :: g2 :: rest2) =
          groupLines g ++ ([] :: groupsLines (g2 :: rest2)) := rfl
      rw [hgl, parseWTAux_group g _ cur hg, parseWTAux_blank,
        ih hrest (some (groupEntry g))]
      simp

theorem groupLines_no_nl (g : WTGroup) (h : WFGroup g = true) :
    ∀ l ∈ groupLines g, ∀ c ∈ l, c ≠ '\n' := by
  have hwt : ∀ c ∈ "worktree ".data, c ≠ '\n' := by decide
  have hbr : ∀ c ∈ "branch ".data, c ≠ '\n' := by decide
  intro l hl c hc
  rw [groupLines] at hl
  cases hb : g.branch with
  | none =>
    rw [hb] at hl
    simp only [List.mem_singleton, List.mem_cons, List.not_mem_nil, or_false] at hl
    subst hl
    rw [String.data_append] at hc
    rcases List.mem_append.mp hc with hm | hm
    · exact hwt c hm
    · exact WFGroup_path_nl h c hm
  | some b =>
    rw [hb] at hl
    simp only [List.mem_cons, List.mem_singleton, List.not_mem_nil, or_false] at hl
    rcases hl with hl | hl
    · subst hl
      rw [String.data_append] at hc
      rcases List.mem_append.mp hc with hm | hm
      · exact hwt c hm
      · exact WFGroup_path_nl h c hm
    · subst hl
      rw [String.data_append] at hc
      rcases List.mem_append.mp hc with hm | hm
      · exact hbr c hm
      · exact WFGroup_branch_nl h hb c hm

theorem groupsLines_no_nl (gs : List WTGroup) (h : ∀ g ∈ gs, WFGroup g = true) :
    ∀ l ∈ groupsLines gs, ∀ c ∈ l, c ≠ '\n' := by
  induction gs with
  | nil => simp [groupsLines]
  | cons g rest ih =>
    have hg := h g (by simp)
    have hrest : ∀ x ∈ rest, WFGroup x = true := fun x hm => h x (by simp [hm])
    cases rest with
    | nil =>
      intro l hl
      exact groupLines_no_nl g hg l (by simpa [groupsLines] using hl)
    | cons g2 rest2 =>
      intro l hl
      have hgl : groupsLines (g :: g2 :: rest2) =
          groupLines g ++ ([] :: groupsLines (g2 :: rest2)) := rfl
      rw [hgl] at hl
      rcases List.mem_append.mp hl with hm | hm
      · exact groupLines_no_nl g hg l hm
      · rcases List.mem_cons.mp hm with hm2 | hm2
        · subst hm2; intro c hc; cases hc
        · exact ih hrest l hm2

theorem groupsLines_ne_nil (g : WTGroup) (rest : List WTGroup) :
    groupsLines (g :: rest) ≠ [] := by
  cases rest with
  | nil => simp [groupsLines, groupLines]
  | cons g2 rest2 =>
    have hgl : groupsLines (g :: g2 :: rest2) =
        groupLines g ++ ([] :: groupsLines (g2 :: rest2)) := rfl
    rw [hgl, groupLines]
    simp

/-- C7: for every input made of well-formed groups — each a `worktree <path>`
line optionally followed by a `branch <ref>` line, groups separated by blank
lines and with no blank line after the last group — the parser returns exactly
one entry per group, in input order, with the group's path and branch values;
a group without a branch line yields an empty branch field, and the final
group is flushed even though no trailing blank line follows it. -/
theorem parse_worktree_list_groups_c7 (gs : List WTGroup)
    (h : ∀ g ∈ gs, WFGroup g = true) :
    parseWorktreeList (renderGroups gs) = gs.map groupEntry := by
  cases gs with
  | nil => rfl
  | cons g rest =>
    rw [parseWorktreeList, renderGroups, strMk_data]
    rw [show (String.mk (joinLines (groupsLines (g :: rest)))).data =
          joinLines (groupsLines (g :: rest)) from rfl]
    rw [splitLines_join _ (groupsLines_ne_nil g rest) (groupsLines_no_nl _ h)]
    simpa using parseWTAux_groups (g :: rest) h none

/-- C7 witness: the round trip applied to two concrete groups, the second
detached (no branch line). -/
theorem parse_worktree_list_groups_c7_witness :
    parseWorktreeList
        (renderGroups
          [{ path := "/repo", branch := some "refs/heads/main" },
           { path := "/repo-worktrees/pr-15-feature", branch := none }]) =
      [{ path := "/repo", branch := "refs/heads/main" },
       { path := "/repo-worktrees/pr-15-feature", branch := "" }] :=
  parse_worktree_list_groups_c7
    [{ path := "/repo", branch := some "refs/heads/main" },
     { path := "/repo-worktrees/pr-15-feature", branch := none }]
    (by decide)

/-! ## Trace predicates and helper lemmas for the resolver theorems -/

/-- Worktree-creation calls. -/
def isAddCall : Call → Bool
  | Call.worktreeAddBranch _ _ _ _ _ => true
  | _ => false

/-- Creation calls of a trace, in order. -/
def addCalls (t : List Call) : List Call :=
  t.filter isAddCall

/-- Mutating cleanup calls (worktree removal, directory deletion). -/
def isRemovalCall : Call → Bool
  | Call.worktreeRemove _ _ _ => true
  | Call.removeAllDir _ => true
  | _ => false

theorem andThen_ok {α β : Type} (a : α) (t : List Call)
    (f : α → Except Err β × List Call) :
    andThen (Except.ok a, t) f = ((f a).1, t ++ (f a).2) := rfl

theorem andThen_error {α β : Type} (e : Err) (t : List Call)
    (f : α → Except Err β × List Call) :
    andThen (Except.error e, t) f = (Except.error e, t) := rfl

theorem addCalls_append (t1 t2 : List Call) :
    addCalls (t1 ++ t2) = addCalls t1 ++ addCalls t2 :=
  List.filter_append t1 t2

theorem addCalls_resolveRepoDir (env : GitEnv) (pd : String) (repo : Repository) :
    addCalls (resolveRepoDir env pd repo).2 = [] := by
  rw [resolveRepoDir]
  split
  · split
    · simp [addCalls, isAddCall]
    · split
      · split
        · simp [addCalls, isAddCall]
        · split <;> simp [addCalls, isAddCall]
      · simp [addCalls, isAddCall]
  · simp [addCalls]

theorem addCalls_ensureRepo (env : GitEnv) (repoDir cloneURL : String) :
    addCalls (ensureRepo env repoDir cloneURL).2 = [] := by
  rw [ensureRepo]
  split
  · split
    · simp [addCalls, isAddCall]
    · split
      · split
        · simp [addCalls, isAddCall]
        · split <;> simp [addCalls, isAddCall]
      · simp [addCalls, isAddCall]
  · simp [addCalls, isAddCall]

theorem addCalls_ensureRemote (env : GitEnv) (repoDir name url : String) :
    addCalls (ensureRemote env repoDir name url).2 = [] := by
  rw [ensureRemote]
  split
  · simp [addCalls, isAddCall]
  · split <;> simp [addCalls, isAddCall]

theorem addCalls_fetchPR (env : GitEnv) (repoDir : String) (pr : PRMetadata) :
    addCalls (fetchPR env repoDir pr).2 = [] := by
  simp [fetchPR, addCalls, isAddCall]

theorem addCalls_andThen {α β : Type} (x : Except Err α × List Call)
    (f : α → Except Err β × List Call)
    (hx : addCalls x.2 = []) (hf : ∀ a, addCalls (f a).2 = []) :
    addCalls (andThen x f).2 = [] := by
  rcases x with ⟨r, t⟩
  cases r with
  | error e => simpa [andThen] using hx
  | ok a => simp only [andThen] ; simpa [addCalls_append, hf a] using hx

theorem addCalls_ensureReadyWorktree (env : GitEnv) (repoDir worktreePath : String)
    (pr : PRMetadata) :
    addCalls (ensureReadyWorktree env repoDir worktreePath pr).2 = [] := by
  rw [ensureReadyWorktree]
  apply addCalls_andThen
  · simp [addCalls, isAddCall]
  · intro a
    split
    · apply addCalls_andThen
      · simp [addCalls, isAddCall]
      · intro b
        simp [addCalls, isAddCall]
    · simp [pureR, addCalls]

theorem addCalls_ensureBareRepo (env : GitEnv) (bareDir cloneURL : String) :
    addCalls (ensureBareRepo env bareDir cloneURL).2 = [] := by
  rw [ensureBareRepo]
  apply addCalls_andThen
  · split
    · split
      · simp [addCalls, isAddCall]
      · split <;> simp [addCalls, isAddCall]
    · simp [addCalls, isAddCall]
  · intro a
    simp [addCalls, isAddCall]

/-- C2: in either strategy, whenever the worktree listing of the resolved
repository (persistent) or bare repository (temporary) contains an entry
whose branch matches the PR's canonical branch — the preceding
directory/bootstrap steps succeeding — `Resolve` returns that entry's path
with `reused = true`, issues no worktree-creation call, and a failure of the
refresh fetch or of the tracking/config refresh is appended to the result's
warnings while the call still succeeds. -/
theorem resolve_reuse_c2 :
    (∀ (env : GitEnv) (cfg : Config) (pr : PRMetadata) (repoDir : String)
       (t1 t2 t3 : List Call) (wts : List Worktree) (wt0 : Worktree),
      resolveRepoDir env cfg.projectsDir pr.baseRepo = (Except.ok repoDir, t1) →
      ensureRepo env repoDir pr.baseRepo.cloneURL = (Except.ok (), t2) →
      (if isCrossRepo pr then
        ensureRemote env repoDir (forkRemoteName pr) pr.headRepo.cloneURL
      else pureR ()) = (Except.ok (), t3) →
      env.worktreeList repoDir = Except.ok wts →
      wts.find? (fun wt => branchMatches wt.branch (branchRefForPR pr)) = some wt0 →
      ∃ w t,
        Resolve env cfg pr false =
          (Except.ok { path := wt0.path, repoDir := repoDir, reused := true, warnings := w },
           t) ∧
        addCalls t = [] ∧
        (∀ e, (fetchPR env repoDir pr).1 = Except.error e → w ≠ []) ∧
        (∀ e, (ensureReadyWorktree env repoDir wt0.path pr).1 = Except.error e → w ≠ []))
    ∧
    (∀ (env : GitEnv) (cfg : Config) (pr : PRMetadata) (bareDir : String)
       (tb tr : List Call) (wts : List Worktree) (wt0 : Worktree),
      bareDir = joinPath cfg.tempDir (repoSlug pr.baseRepo ++ ".git") →
      env.mkdirAll cfg.tempDir = Except.ok () →
      ensureBareRepo env bareDir pr.baseRepo.cloneURL = (Except.ok (), tb) →
      (if isCrossRepo pr then
        ensureRemote env bareDir (forkRemoteName pr) pr.headRepo.cloneURL
      else pureR ()) = (Except.ok (), tr) →
      env.worktreeList bareDir = Except.ok wts →
      wts.find? (fun wt => branchMatches wt.branch (branchRefForPR pr)) = some wt0 →
      ∃ w t,
        Resolve env cfg pr true =
          (Except.ok { path := wt0.path, repoDir := bareDir, reused := true, warnings := w },
           t) ∧
        addCalls t = [] ∧
        (∀ e, (fetchPR env bareDir pr).1 = Except.error e → w ≠ []) ∧
        (∀ e, (ensureReadyWorktree env bareDir wt0.path pr).1 = Except.error e → w ≠ [])) := by
  constructor
  · intro env cfg pr repoDir t1 t2 t3 wts wt0 h1 h2 h3 h4 h5
    have a1 : addCalls t1 = [] := by
      have := addCalls_resolveRepoDir env cfg.projectsDir pr.baseRepo
      rwa [h1] at this
    have a2 : addCalls t2 = [] := by
      have := addCalls_ensureRepo env repoDir pr.baseRepo.cloneURL
      rwa [h2] at this
    have a3 : addCalls t3 = [] := by
      by_cases hc : isCrossRepo pr = true
      · rw [if_pos hc] at h3
        have := addCalls_ensureRemote env repoDir (forkRemoteName pr) pr.headRepo.cloneURL
        rwa [h3] at this
      · rw [if_neg hc] at h3
        have ht : t3 = [] := by
          have := congrArg Prod.snd h3
          simpa [pureR] using this.symm
        rw [ht]
        rfl
    rw [show Resolve env cfg pr false = resolvePersistent env cfg pr from rfl]
    rw [resolvePersistent, h1, andThen_ok]
    simp only []
    rw [h2, andThen_ok]
    simp only []
    rw [h3, andThen_ok]
    simp only []
    simp only [hasWorktreeForBranchE, h4, h5]
    rw [andThen_ok]
    simp only [reuseWorktree, if_true]
    refine ⟨_, _, rfl, ?_, ?_, ?_⟩
    · simp only [addCalls_append, a1, a2, a3, addCalls_fetchPR, addCalls_ensureReadyWorktree,
        List.nil_append, List.append_nil]
      rfl
    · intro e he
      rw [he]
      simp
    · intro e he
      rw [he]
      simp
  · intro env cfg pr bareDir tb tr wts wt0 hbd hm hb hr hw hf
    have ab : addCalls tb = [] := by
      have := addCalls_ensureBareRepo env bareDir pr.baseRepo.cloneURL
      rwa [hb] at this
    have ar : addCalls tr = [] := by
      by_cases hc : isCrossRepo pr = true
      · rw [if_pos hc] at hr
        have := addCalls_ensureRemote env bareDir (forkRemoteName pr) pr.headRepo.cloneURL
        rwa [hr] at this
      · rw [if_neg hc] at hr
        have ht : tr = [] := by
          have := congrArg Prod.snd hr
          simpa [pureR] using this.symm
        rw [ht]
        rfl
    rw [show Resolve env cfg pr true = resolveTemp env cfg pr from rfl]
    rw [resolveTemp]
    simp only [mkdirTempDir, hm]
    rw [andThen_ok]
    rw [← hbd, hb, andThen_ok]
    simp only []
    rw [hr, andThen_ok]
    simp only []
    simp only [hasWorktreeForBranchE, hw, hf]
    rw [andThen_ok]
    simp only [reuseWorktree, if_true]
    refine ⟨_, _, rfl, ?_, ?_, ?_⟩
    · simp only [addCalls_append, ab, ar, addCalls_fetchPR, addCalls_ensureReadyWorktree,
        List.nil_append, List.append_nil]
      rfl
    · intro e he
      rw [he]
      simp
    · intro e he
      rw [he]
      simp

/-- Oracle for an established checkout: the repository directory exists with a
matching origin, its listing already contains a worktree on branch `feature`,
and the refresh fetch fails (offline). -/
def reuseEnv : GitEnv :=
  { freshEnv with
    pathExists := fun p => p == "projects/repo"
    hasRemote := fun _ name => Except.ok (name == "origin")
    originURL := fun _ => Except.ok "https://github.com/octo/repo.git"
    worktreeList := fun _ => Except.ok
      [{ path := "projects/repo-worktrees/pr-15-feature", branch := "refs/heads/feature" }]
    fetch := fun _ _ _ => Except.error (Err.generic "network unreachable") }

/-- Oracle for an established temporary workspace: the bare repository's
listing already contains a worktree on branch `feature`, and the refresh
fetch fails (offline). -/
def tempReuseEnv : GitEnv :=
  { freshEnv with
    worktreeList := fun _ => Except.ok
      [{ path := "tmp/octo-repo-pr-15-feature", branch := "refs/heads/feature" }]
    fetch := fun _ _ _ => Except.error (Err.generic "network unreachable") }

/-- C2 witness: both strategy conclusions applied to concrete offline
scenarios. -/
theorem resolve_reuse_c2_witness :
    (∃ w t,
      Resolve reuseEnv cfgC pr15 false =
        (Except.ok { path := "projects/repo-worktrees/pr-15-feature",
                     repoDir := "projects/repo", reused := true, warnings := w }, t) ∧
      addCalls t = [] ∧
      (∀ e, (fetchPR reuseEnv "projects/repo" pr15).1 = Except.error e → w ≠ []) ∧
      (∀ e, (ensureReadyWorktree reuseEnv "projects/repo"
          "projects/repo-worktrees/pr-15-feature" pr15).1 = Except.error e → w ≠ [])) ∧
    (∃ w t,
      Resolve tempReuseEnv cfgC pr15 true =
        (Except.ok { path := "tmp/octo-repo-pr-15-feature",
                     repoDir := "tmp/octo-repo.git", reused := true, warnings := w }, t) ∧
      addCalls t = [] ∧
      (∀ e, (fetchPR tempReuseEnv "tmp/octo-repo.git" pr15).1 = Except.error e → w ≠ []) ∧
      (∀ e, (ensureReadyWorktree tempReuseEnv "tmp/octo-repo.git"
          "tmp/octo-repo-pr-15-feature" pr15).1 = Except.error e → w ≠ [])) :=
  ⟨resolve_reuse_c2.1 reuseEnv cfgC pr15 "projects/repo"
    [Call.isGitRepo "projects/repo", Call.originURL "projects/repo"]
    [Call.isGitRepo "projects/repo", Call.hasRemote "projects/repo" "origin"]
    []
    [{ path := "projects/repo-worktrees/pr-15-feature", branch := "refs/heads/feature" }]
    { path := "projects/repo-worktrees/pr-15-feature", branch := "refs/heads/feature" }
    rfl rfl rfl rfl rfl,
   resolve_reuse_c2.2 tempReuseEnv cfgC pr15 "tmp/octo-repo.git"
    [Call.cloneBare "https://github.com/octo/repo.git" "tmp/octo-repo.git" 0,
     Call.configSet "tmp/octo-repo.git" "remote.origin.fetch"
       "+refs/heads/*:refs/remotes/origin/*"]
    []
    [{ path := "tmp/octo-repo-pr-15-feature", branch := "refs/heads/feature" }]
    { path := "tmp/octo-repo-pr-15-feature", branch := "refs/heads/feature" }
    rfl rfl rfl rfl rfl rfl⟩

theorem addCalls_worktreeAddChain (env : GitEnv) (dir path br st : String) :
    ∃ rest, addCalls (worktreeAddChain env dir path br st).2 =
      Call.worktreeAddBranch dir path br st false :: rest := by
  rw [worktreeAddChain]
  cases h : env.worktreeAddBranch dir path br st false with
  | ok a => exact ⟨[], by simp [addCalls, isAddCall]⟩
  | error e =>
    by_cases hb : e.isBranchExists = true
    · exact ⟨[Call.worktreeAddBranch dir path br st true],
        by simp [hb, addCalls, isAddCall]⟩
    · exact ⟨[], by simp [hb, addCalls, isAddCall]⟩

theorem addCalls_ready_then_pure (env : GitEnv) (d w : String) (pr : PRMetadata)
    (res : Result) :
    addCalls (andThen (ensureReadyWorktree env d w pr) (fun _ => pureR res)).2 = [] := by
  apply addCalls_andThen
  · exact addCalls_ensureReadyWorktree env d w pr
  · intro b
    simp [pureR, addCalls]

/-- C10: in the temporary strategy every PR reaching the worktree-creation
step issues exactly one worktree-creation call, and that single first attempt
carries `forceReset = true` (so the `BranchExists` retry path cannot be
exercised, whatever the call's outcome); the persistent strategy's first
creation attempt instead carries `forceReset = false`. -/
theorem resolve_temp_force_reset_c10 :
    (∀ (env : GitEnv) (cfg : Config) (pr : PRMetadata) (bareDir wtPath : String)
       (tb tr : List Call) (wts : List Worktree),
      bareDir = joinPath cfg.tempDir (repoSlug pr.baseRepo ++ ".git") →
      wtPath = joinPath cfg.tempDir (repoSlug pr.baseRepo ++ "-" ++ worktreeName pr) →
      env.mkdirAll cfg.tempDir = Except.ok () →
      ensureBareRepo env bareDir pr.baseRepo.cloneURL = (Except.ok (), tb) →
      (if isCrossRepo pr then
        ensureRemote env bareDir (forkRemoteName pr) pr.headRepo.cloneURL
      else pureR ()) = (Except.ok (), tr) →
      env.worktreeList bareDir = Except.ok wts →
      wts.find? (fun wt => branchMatches wt.branch (branchRefForPR pr)) = none →
      env.fetch bareDir (fetchRemoteName pr) (fetchRefspec pr) = Except.ok () →
      env.pathExists wtPath = false →
      addCalls (Resolve env cfg pr true).2 =
        [Call.worktreeAddBranch bareDir wtPath (branchRefForPR pr) (remoteRefForPR pr) true])
    ∧
    (∀ (env : GitEnv) (cfg : Config) (pr : PRMetadata) (repoDir wtPath : String)
       (t1 t2 t3 : List Call) (wts : List Worktree),
      wtPath = joinPath (repoDir ++ "-worktrees") (worktreeName pr) →
      resolveRepoDir env cfg.projectsDir pr.baseRepo = (Except.ok repoDir, t1) →
      ensureRepo env repoDir pr.baseRepo.cloneURL = (Except.ok (), t2) →
      (if isCrossRepo pr then
        ensureRemote env repoDir (forkRemoteName pr) pr.headRepo.cloneURL
      else pureR ()) = (Except.ok (), t3) →
      env.worktreeList repoDir = Except.ok wts →
      wts.find? (fun wt => branchMatches wt.branch (branchRefForPR pr)) = none →
      env.fetch repoDir (fetchRemoteName pr) (fetchRefspec pr) = Except.ok () →
      env.mkdirAll (repoDir ++ "-worktrees") = Except.ok () →
      env.pathExists wtPath = false →
      (addCalls (Resolve env cfg pr false).2).head? =
        some (Call.worktreeAddBranch repoDir wtPath (branchRefForPR pr) (remoteRefForPR pr) false)) := by
  constructor
  · intro env cfg pr bareDir wtPath tb tr wts hbd hwp hm hb hr hw hf hof hpe
    have ab : addCalls tb = [] := by
      have := addCalls_ensureBareRepo env bareDir pr.baseRepo.cloneURL
      rwa [hb] at this
    have ar : addCalls tr = [] := by
      by_cases hc : isCrossRepo pr = true
      · rw [if_pos hc] at hr
        have := addCalls_ensureRemote env bareDir (forkRemoteName pr) pr.headRepo.cloneURL
        rwa [hr] at this
      · rw [if_neg hc] at hr
        have ht : tr = [] := by
          have := congrArg Prod.snd hr
          simpa [pureR] using this.symm
        rw [ht]
        rfl
    rw [show Resolve env cfg pr true = resolveTemp env cfg pr from rfl]
    rw [resolveTemp]
    simp only [mkdirTempDir, hm]
    rw [andThen_ok]
    simp only []
    rw [← hbd, hb, andThen_ok]
    simp only []
    rw [hr, andThen_ok]
    simp only []
    simp only [hasWorktreeForBranchE, hw, hf]
    rw [andThen_ok]
    simp only [Bool.false_eq_true, if_false, fetchPR, hof]
    rw [andThen_ok]
    simp only [← hwp, hpe, Bool.false_eq_true, if_false]
    cases hres : env.worktreeAddBranch bareDir wtPath (branchRefForPR pr)
        (remoteRefForPR pr) true with
    | ok a =>
      rw [andThen_ok]
      simp only [addCalls_append, ab, ar, addCalls_ready_then_pure]
      rfl
    | error e =>
      rw [andThen_error]
      simp only [addCalls_append, ab, ar]
      rfl
  · intro env cfg pr repoDir wtPath t1 t2 t3 wts hwp h1 h2 h3 hw hf hof hmk hpe
    have a1 : addCalls t1 = [] := by
      have := addCalls_resolveRepoDir env cfg.projectsDir pr.baseRepo
      rwa [h1] at this
    have a2 : addCalls t2 = [] := by
      have := addCalls_ensureRepo env repoDir pr.baseRepo.cloneURL
      rwa [h2] at this
    have a3 : addCalls t3 = [] := by
      by_cases hc : isCrossRepo pr = true
      · rw [if_pos hc] at h3
        have := addCalls_ensureRemote env repoDir (forkRemoteName pr) pr.headRepo.cloneURL
        rwa [h3] at this
      · rw [if_neg hc] at h3
        have ht : t3 = [] := by
          have := congrArg Prod.snd h3
          simpa [pureR] using this.symm
        rw [ht]
        rfl
    rw [show Resolve env cfg pr false = resolvePersistent env cfg pr from rfl]
    rw [resolvePersistent, h1, andThen_ok]
    simp only []
    rw [h2, andThen_ok]
    simp only []
    rw [h3, andThen_ok]
    simp only []
    simp only [hasWorktreeForBranchE, hw, hf]
    rw [andThen_ok]
    simp only [Bool.false_eq_true, if_false, fetchPR, hof]
    rw [andThen_ok]
    simp only [mkdirWorktreeRoot, hmk]
    rw [andThen_ok]
    simp only [← hwp, hpe, Bool.false_eq_true, if_false]
    obtain ⟨rest, hchain⟩ :=
      addCalls_worktreeAddChain env repoDir wtPath (branchRefForPR pr) (remoteRefForPR pr)
    cases hres : worktreeAddChain env repoDir wtPath (branchRefForPR pr) (remoteRefForPR pr) with
    | mk r tch =>
      rw [hres] at hchain
      cases r with
      | ok a =>
        rw [andThen_ok]
        simp only [addCalls_append, a1, a2, a3, addCalls_ready_then_pure]
        simp only [List.nil_append, List.append_nil]
        rw [show addCalls [Call.worktreeList repoDir] = [] from rfl,
          show addCalls [Call.fetch repoDir (fetchRemoteName pr) (fetchRefspec pr)] = [] from rfl,
          show addCalls [Call.mkdirAll (repoDir ++ "-worktrees")] = [] from rfl]
        simp only [List.nil_append, List.append_nil]
        rw [hchain]
        rfl
      | error e =>
        rw [andThen_error]
        simp only [addCalls_append, a1, a2, a3]
        simp only [List.nil_append, List.append_nil]
        rw [show addCalls [Call.worktreeList repoDir] = [] from rfl,
          show addCalls [Call.fetch repoDir (fetchRemoteName pr) (fetchRefspec pr)] = [] from rfl,
          show addCalls [Call.mkdirAll (repoDir ++ "-worktrees")] = [] from rfl]
        simp only [List.nil_append, List.append_nil]
        rw [hchain]
        rfl

/-- C10 witness: both strategy conclusions applied to the fresh same-repo
scenario. -/
theorem resolve_temp_force_reset_c10_witness :
    addCalls (Resolve freshEnv cfgC pr15 true).2 =
      [Call.worktreeAddBranch "tmp/octo-repo.git" "tmp/octo-repo-pr-15-feature"
        (branchRefForPR pr15) (remoteRefForPR pr15) true] ∧
    (addCalls (Resolve freshEnv cfgC pr15 false).2).head? =
      some (Call.worktreeAddBranch "projects/repo" "projects/repo-worktrees/pr-15-feature"
        (branchRefForPR pr15) (remoteRefForPR pr15) false) :=
  ⟨resolve_temp_force_reset_c10.1 freshEnv cfgC pr15 "tmp/octo-repo.git"
      "tmp/octo-repo-pr-15-feature"
      [Call.cloneBare "https://github.com/octo/repo.git" "tmp/octo-repo.git" 0,
       Call.configSet "tmp/octo-repo.git" "remote.origin.fetch"
         "+refs/heads/*:refs/remotes/origin/*"]
      [] [] rfl rfl rfl rfl rfl rfl rfl rfl rfl,
   resolve_temp_force_reset_c10.2 freshEnv cfgC pr15 "projects/repo"
      "projects/repo-worktrees/pr-15-feature"
      [] [Call.clone "https://github.com/octo/repo.git" "projects/repo"] []
      [] rfl rfl rfl rfl rfl rfl rfl rfl rfl⟩

/-- Fresh-path evaluation of the spec-modelled persistent resolver: with every
reaching step succeeding, the run returns the new worktree with the
base-branch and submodule warnings, and its trace contains the head fetch,
the base-branch fetch and the submodule initialization. -/
theorem resolvePersistentS_fresh (env : GitEnv) (cfg : Config) (pr : PRMetadata)
    (repoDir wtPath : String) (t1 t2 t3 trdy : List Call) (wts : List Worktree)
    (hwp : wtPath = joinPath (repoDir ++ "-worktrees") (worktreeName pr))
    (h1 : resolveRepoDir env cfg.projectsDir pr.baseRepo = (Except.ok repoDir, t1))
    (h2 : ensureRepo env repoDir pr.baseRepo.cloneURL = (Except.ok (), t2))
    (h3 : (if isCrossRepo pr then
        ensureRemote env repoDir (forkRemoteName pr) pr.headRepo.cloneURL
      else pureR ()) = (Except.ok (), t3))
    (hw : env.worktreeList repoDir = Except.ok wts)
    (hf : wts.find? (fun wt => branchMatches wt.branch (branchRefForPR pr)) = none)
    (hfe : env.fetch repoDir (fetchRemoteName pr) (fetchRefspec pr) = Except.ok ())
    (hmk : env.mkdirAll (repoDir ++ "-worktrees") = Except.ok ())
    (hpe : env.pathExists wtPath = false)
    (hadd : env.worktreeAddBranch repoDir wtPath (branchRefForPR pr) (remoteRefForPR pr) false =
      Except.ok ())
    (hrdy : ensureReadyWorktree env repoDir wtPath pr = (Except.ok (), trdy)) :
    ∃ t,
      resolvePersistentS env cfg pr =
        (Except.ok
          { path := wtPath, repoDir := repoDir, reused := false,
            warnings :=
              (match env.fetchBranch repoDir "origin" pr.baseRef with
               | Except.error e => ["base branch fetch failed: " ++ e.message]
               | Except.ok _ => []) ++
              (match env.submoduleUpdate wtPath with
               | Except.error e => ["submodule update failed: " ++ e.message]
               | Except.ok _ => []) }, t) ∧
      Call.fetch repoDir (fetchRemoteName pr) (fetchRefspec pr) ∈ t ∧
      Call.fetchBranch repoDir "origin" pr.baseRef ∈ t ∧
      Call.submoduleUpdate wtPath ∈ t := by
  have hch : worktreeAddChain env repoDir wtPath (branchRefForPR pr) (remoteRefForPR pr) =
      (Except.ok (), [Call.worktreeAddBranch repoDir wtPath (branchRefForPR pr)
        (remoteRefForPR pr) false]) := by
    rw [worktreeAddChain, hadd]
  rw [resolvePersistentS, h1, andThen_ok]
  simp only []
  rw [h2, andThen_ok]
  simp only []
  rw [h3, andThen_ok]
  simp only []
  simp only [hasWorktreeForBranchE, hw, hf]
  rw [andThen_ok]
  simp only [Bool.false_eq_true, if_false, fetchPR, hfe]
  rw [andThen_ok]
  simp only [fetchBaseBranch]
  rw [andThen_ok]
  simp only [mkdirWorktreeRoot, hmk]
  rw [andThen_ok]
  simp only [← hwp, hpe, Bool.false_eq_true, if_false]
  rw [hch, andThen_ok]
  simp only [ensureReadyWorktreeS, hrdy]
  cases hsub : env.submoduleUpdate wtPath with
  | ok a =>
    refine ⟨_, rfl, ?_, ?_, ?_⟩ <;> simp
  | error e =>
    refine ⟨_, rfl, ?_, ?_, ?_⟩ <;> simp

/-- C5: on the no-existing-worktree path the (spec-modelled) resolver fetches
the PR's head ref into its remote-tracking ref — remote `origin` for
same-repo PRs, the fork remote for cross-repo PRs, as chosen by
`fetchRemoteName` — and also attempts the base branch over `FetchBranch`;
whatever the base-branch fetch returns the resolution still succeeds, and a
base-branch fetch failure adds a warning to the result. -/
theorem resolve_fetch_base_branch_c5 (env : GitEnv) (cfg : Config) (pr : PRMetadata)
    (repoDir wtPath : String) (t1 t2 t3 trdy : List Call) (wts : List Worktree)
    (hwp : wtPath = joinPath (repoDir ++ "-worktrees") (worktreeName pr))
    (h1 : resolveRepoDir env cfg.projectsDir pr.baseRepo = (Except.ok repoDir, t1))
    (h2 : ensureRepo env repoDir pr.baseRepo.cloneURL = (Except.ok (), t2))
    (h3 : (if isCrossRepo pr then
        ensureRemote env repoDir (forkRemoteName pr) pr.headRepo.cloneURL
      else pureR ()) = (Except.ok (), t3))
    (hw : env.worktreeList repoDir = Except.ok wts)
    (hf : wts.find? (fun wt => branchMatches wt.branch (branchRefForPR pr)) = none)
    (hfe : env.fetch repoDir (fetchRemoteName pr) (fetchRefspec pr) = Except.ok ())
    (hmk : env.mkdirAll (repoDir ++ "-worktrees") = Except.ok ())
    (hpe : env.pathExists wtPath = false)
    (hadd : env.worktreeAddBranch repoDir wtPath (branchRefForPR pr) (remoteRefForPR pr) false =
      Except.ok ())
    (hrdy : ensureReadyWorktree env repoDir wtPath pr = (Except.ok (), trdy)) :
    ∃ r t,
      resolvePersistentS env cfg pr = (Except.ok r, t) ∧
      r.reused = false ∧
      Call.fetch repoDir (fetchRemoteName pr) (fetchRefspec pr) ∈ t ∧
      Call.fetchBranch repoDir "origin" pr.baseRef ∈ t ∧
      (∀ e, env.fetchBranch repoDir "origin" pr.baseRef = Except.error e →
        r.warnings ≠ []) := by
  obtain ⟨t, heq, hm1, hm2, hm3⟩ :=
    resolvePersistentS_fresh env cfg pr repoDir wtPath t1 t2 t3 trdy wts
      hwp h1 h2 h3 hw hf hfe hmk hpe hadd hrdy
  refine ⟨_, t, heq, rfl, hm1, hm2, ?_⟩
  intro e he
  rw [he]
  simp

/-- C6: after creating and configuring a new worktree the (spec-modelled)
resolver runs submodule initialization in that worktree, and a
submodule-update failure is recorded in the result's warnings instead of
aborting the resolution. -/
theorem resolve_submodule_warning_c6 (env : GitEnv) (cfg : Config) (pr : PRMetadata)
    (repoDir wtPath : String) (t1 t2 t3 trdy : List Call) (wts : List Worktree)
    (hwp : wtPath = joinPath (repoDir ++ "-worktrees") (worktreeName pr))
    (h1 : resolveRepoDir env cfg.projectsDir pr.baseRepo = (Except.ok repoDir, t1))
    (h2 : ensureRepo env repoDir pr.baseRepo.cloneURL = (Except.ok (), t2))
    (h3 : (if isCrossRepo pr then
        ensureRemote env repoDir (forkRemoteName pr) pr.headRepo.cloneURL
      else pureR ()) = (Except.ok (), t3))
    (hw : env.worktreeList repoDir = Except.ok wts)
    (hf : wts.find? (fun wt => branchMatches wt.branch (branchRefForPR pr)) = none)
    (hfe : env.fetch repoDir (fetchRemoteName pr) (fetchRefspec pr) = Except.ok ())
    (hmk : env.mkdirAll (repoDir ++ "-worktrees") = Except.ok ())
    (hpe : env.pathExists wtPath = false)
    (hadd : env.worktreeAddBranch repoDir wtPath (branchRefForPR pr) (remoteRefForPR pr) false =
      Except.ok ())
    (hrdy : ensureReadyWorktree env repoDir wtPath pr = (Except.ok (), trdy)) :
    ∃ r t,
      resolvePersistentS env cfg pr = (Except.ok r, t) ∧
      r.path = wtPath ∧
      Call.submoduleUpdate wtPath ∈ t ∧
      (∀ e, env.submoduleUpdate wtPath = Except.error e → r.warnings ≠ []) := by
  obtain ⟨t, heq, hm1, hm2, hm3⟩ :=
    resolvePersistentS_fresh env cfg pr repoDir wtPath t1 t2 t3 trdy wts
      hwp h1 h2 h3 hw hf hfe hmk hpe hadd hrdy
  refine ⟨_, t, heq, rfl, hm3, ?_⟩
  intro e he
  rw [he]
  simp

/-- Oracle like `freshEnv` whose base-branch fetch fails. -/
def baseFetchFailEnv : GitEnv :=
  { freshEnv with fetchBranch := fun _ _ _ => Except.error (Err.generic "network unreachable") }

/-- Oracle like `freshEnv` whose submodule initialization fails. -/
def submoduleFailEnv : GitEnv :=
  { freshEnv with submoduleUpdate := fun _ => Except.error (Err.generic "submodule init failed") }

/-- C5 witness: the theorem applied to a fresh same-repo scenario whose
base-branch fetch fails. -/
theorem resolve_fetch_base_branch_c5_witness :
    ∃ r t,
      resolvePersistentS baseFetchFailEnv cfgC pr15 = (Except.ok r, t) ∧
      r.reused = false ∧
      Call.fetch "projects/repo" (fetchRemoteName pr15) (fetchRefspec pr15) ∈ t ∧
      Call.fetchBranch "projects/repo" "origin" pr15.baseRef ∈ t ∧
      (∀ e, baseFetchFailEnv.fetchBranch "projects/repo" "origin" pr15.baseRef =
          Except.error e → r.warnings ≠ []) :=
  resolve_fetch_base_branch_c5 baseFetchFailEnv cfgC pr15 "projects/repo"
    "projects/repo-worktrees/pr-15-feature"
    [] [Call.clone "https://github.com/octo/repo.git" "projects/repo"] []
    [Call.setUpstream "projects/repo-worktrees/pr-15-feature" "feature" "origin/feature"]
    [] rfl rfl rfl rfl rfl rfl rfl rfl rfl rfl rfl

/-- C6 witness: the theorem applied to a fresh same-repo scenario whose
submodule initialization fails. -/
theorem resolve_submodule_warning_c6_witness :
    ∃ r t,
      resolvePersistentS submoduleFailEnv cfgC pr15 = (Except.ok r, t) ∧
      r.path = "projects/repo-worktrees/pr-15-feature" ∧
      Call.submoduleUpdate "projects/repo-worktrees/pr-15-feature" ∈ t ∧
      (∀ e, submoduleFailEnv.submoduleUpdate "projects/repo-worktrees/pr-15-feature" =
          Except.error e → r.warnings ≠ []) :=
  resolve_submodule_warning_c6 submoduleFailEnv cfgC pr15 "projects/repo"
    "projects/repo-worktrees/pr-15-feature"
    [] [Call.clone "https://github.com/octo/repo.git" "projects/repo"] []
    [Call.setUpstream "projects/repo-worktrees/pr-15-feature" "feature" "origin/feature"]
    [] rfl rfl rfl rfl rfl rfl rfl rfl rfl rfl rfl

/-! ## Temporary-workspace cleanup (C9) -/

/-- Worktree-removal calls. -/
def isWtRemoveCall : Call → Bool
  | Call.worktreeRemove _ _ _ => true
  | _ => false

theorem cleanLoop_dry (env : GitEnv) (bareDir : String) (ttl : Int) (removeAll : Bool)
    (wts : List Worktree) :
    cleanLoop env bareDir ttl removeAll true wts =
      (Except.ok ((wts.filter (fun wt => wt.path != bareDir &&
        shouldRemoveWt env ttl removeAll wt)).map Worktree.path), []) := by
  induction wts with
  | nil => rfl
  | cons wt rest ih =>
    by_cases h1 : (wt.path == bareDir) = true
    · have h1' : (wt.path != bareDir) = false := by simp [bne, h1]
      simp [cleanLoop, h1, h1', ih]
    · have h1' : (wt.path != bareDir) = true := by simp [bne, h1]
      by_cases h2 : shouldRemoveWt env ttl removeAll wt = true
      · simp [cleanLoop, h1, h1', h2, ih]
      · simp [cleanLoop, h1, h1', h2, ih]

theorem cleanLoop_live (env : GitEnv) (bareDir : String) (ttl : Int) (removeAll : Bool)
    (hrem : ∀ p, env.worktreeRemove bareDir p true = Except.ok ())
    (wts : List Worktree) :
    cleanLoop env bareDir ttl removeAll false wts =
      (Except.ok ((wts.filter (fun wt => wt.path != bareDir &&
        shouldRemoveWt env ttl removeAll wt)).map Worktree.path),
       ((wts.filter (fun wt => wt.path != bareDir &&
        shouldRemoveWt env ttl removeAll wt)).map
          (fun wt => Call.worktreeRemove bareDir wt.path true))) := by
  induction wts with
  | nil => rfl
  | cons wt rest ih =>
    by_cases h1 : (wt.path == bareDir) = true
    · have h1' : (wt.path != bareDir) = false := by simp [bne, h1]
      simp [cleanLoop, h1, h1', ih]
    · have h1' : (wt.path != bareDir) = true := by simp [bne, h1]
      by_cases h2 : shouldRemoveWt env ttl removeAll wt = true
      · simp [cleanLoop, h1, h1', h2, ih, hrem wt.path]
      · simp [cleanLoop, h1, h1', h2, ih]

theorem cleanBareRepo_dry_eq (env : GitEnv) (bareDir : String) (ttl : Int)
    (removeAll : Bool) (wts : List Worktree)
    (hl : env.worktreeList bareDir = Except.ok wts) :
    cleanBareRepo env bareDir ttl removeAll true =
      (Except.ok ((wts.filter (fun wt => wt.path != bareDir &&
        shouldRemoveWt env ttl removeAll wt)).map Worktree.path),
       [Call.worktreeList bareDir]) := by
  rw [cleanBareRepo]
  simp only [hl]
  rw [cleanLoop_dry]
  simp

theorem cleanBareRepo_dry_trace (env : GitEnv) (bareDir : String) (ttl : Int)
    (removeAll : Bool) :
    (cleanBareRepo env bareDir ttl removeAll true).2 = [Call.worktreeList bareDir] := by
  cases hl : env.worktreeList bareDir with
  | error e =>
    rw [cleanBareRepo]
    simp [hl]
  | ok wts =>
    rw [cleanBareRepo_dry_eq env bareDir ttl removeAll wts hl]

theorem cleanBareRepo_live_eq (env : GitEnv) (bareDir : String) (ttl : Int)
    (removeAll : Bool) (wts : List Worktree)
    (hl : env.worktreeList bareDir = Except.ok wts)
    (hrem : ∀ p, env.worktreeRemove bareDir p true = Except.ok ())
    (hdel : env.removeAllDir bareDir = Except.ok ()) :
    cleanBareRepo env bareDir ttl removeAll false =
      (Except.ok ((wts.filter (fun wt => wt.path != bareDir &&
        shouldRemoveWt env ttl removeAll wt)).map Worktree.path),
       Call.worktreeList bareDir ::
        (((wts.filter (fun wt => wt.path != bareDir &&
            shouldRemoveWt env ttl removeAll wt)).map
            (fun wt => Call.worktreeRemove bareDir wt.path true)) ++
          (if (wts.filter (fun wt => wt.path != bareDir &&
              !((wts.filter (fun wt => wt.path != bareDir &&
                shouldRemoveWt env ttl removeAll wt)).map Worktree.path).contains
                  wt.path)).length == 0
           then [Call.removeAllDir bareDir] else []))) := by
  rw [cleanBareRepo]
  simp only [hl]
  rw [cleanLoop_live env bareDir ttl removeAll hrem]
  by_cases hc : ((wts.filter (fun wt => wt.path != bareDir &&
      !((wts.filter (fun wt => wt.path != bareDir &&
        shouldRemoveWt env ttl removeAll wt)).map Worktree.path).contains
          wt.path)).length == 0) = true
  · simp only [hc, if_true, hdel]
    simp
  · have hc' := eq_false_of_ne_true hc
    simp only [hc', if_false]
    simp [hc']

theorem shouldRemove_path_congr (env : GitEnv) (ttl : Int) (removeAll : Bool)
    (wt wt' : Worktree) (h : wt.path = wt'.path) :
    shouldRemoveWt env ttl removeAll wt = shouldRemoveWt env ttl removeAll wt' := by
  simp [shouldRemoveWt, h]

theorem remaining_zero_iff (env : GitEnv) (bareDir : String) (ttl : Int)
    (removeAll : Bool) (wts : List Worktree) :
    ((wts.filter (fun wt => wt.path != bareDir &&
        !((wts.filter (fun wt => wt.path != bareDir &&
          shouldRemoveWt env ttl removeAll wt)).map Worktree.path).contains
            wt.path)).length == 0) = true ↔
      ∀ wt ∈ wts, wt.path = bareDir ∨ shouldRemoveWt env ttl removeAll wt = true := by
  rw [beq_iff_eq, List.length_eq_zero, List.filter_eq_nil_iff]
  constructor
  · intro h wt hm
    have hwt := h wt hm
    by_cases hp : wt.path = bareDir
    · exact Or.inl hp
    · right
      have hne : (wt.path != bareDir) = true := by simp [bne, hp]
      simp only [hne, Bool.true_and, Bool.not_eq_true', Bool.not_eq_false] at hwt
      have hmem := List.elem_iff.mp hwt
      rcases List.mem_map.mp hmem with ⟨wt', hwt', hpath⟩
      rcases List.mem_filter.mp hwt' with ⟨_, hP⟩
      simp only [Bool.and_eq_true] at hP
      rw [shouldRemove_path_congr env ttl removeAll wt wt' hpath.symm]
      exact hP.2
  · intro h wt hm
    rcases h wt hm with hp | hs
    · simp [bne, hp]
    · by_cases hp : wt.path = bareDir
      · simp [bne, hp]
      · have hmem : wt.path ∈ (wts.filter (fun wt => wt.path != bareDir &&
            shouldRemoveWt env ttl removeAll wt)).map Worktree.path :=
          List.mem_map.mpr ⟨wt, List.mem_filter.mpr ⟨hm, by simp [bne, hp, hs]⟩, rfl⟩
        simp [List.contains, List.elem_eq_true_of_mem hmem]
        intro _
        exact ⟨wt, hm, hp, hs, rfl⟩

theorem cleanEntriesLoop_dry_no_removal (env : GitEnv) (tempDir : String) (ttl : Int)
    (removeAll : Bool) (entries : List DirEntry) :
    ((cleanEntriesLoop env tempDir ttl removeAll true entries).2.filter isRemovalCall) = [] := by
  induction entries with
  | nil => rfl
  | cons e rest ih =>
    by_cases hc : (e.isDir && strEndsWith e.name ".git") = true
    · have ht := cleanBareRepo_dry_trace env (joinPath tempDir e.name) ttl removeAll
      cases hb : cleanBareRepo env (joinPath tempDir e.name) ttl removeAll true with
      | mk r t =>
        rw [hb] at ht
        cases r with
        | error er =>
          simp [cleanEntriesLoop, hc, hb, ht, isRemovalCall]
        | ok ps =>
          cases hrest : cleanEntriesLoop env tempDir ttl removeAll true rest with
          | mk r2 t2 =>
            rw [hrest] at ih
            cases r2 <;>
              simp_all [cleanEntriesLoop, hc, isRemovalCall, List.filter_append]
    · simp [cleanEntriesLoop, hc, ih]

theorem cleanTemp_dry_no_removal (env : GitEnv) (tempDir : String) (ttl : Int)
    (removeAll : Bool) :
    ((CleanTemp env tempDir ttl removeAll true).2.filter isRemovalCall) = [] := by
  rw [CleanTemp]
  cases h : env.readDir tempDir with
  | notExist => rfl
  | err m => rfl
  | ok entries => exact cleanEntriesLoop_dry_no_removal env tempDir ttl removeAll entries

/-- C9: temporary-workspace cleanup.  A dry run of `CleanTemp` performs no
removal call at all (so, the oracle being unchanged, a second dry run returns
the same candidates).  For one bare repository with a successful listing:
a dry run reports exactly the entries other than the bare directory that are
marked — `removeAll` set, or modification time at least `ttl` old, a stat
failure meaning do-not-remove — and performs only the listing; a live run
returns the same candidate list, force-removes exactly the marked worktrees,
and deletes the bare repository directory exactly when every listed worktree
other than the bare directory itself is marked. -/
theorem clean_temp_c9 :
    (∀ (env : GitEnv) (tempDir : String) (ttl : Int) (removeAll : Bool),
      ((CleanTemp env tempDir ttl removeAll true).2.filter isRemovalCall) = []) ∧
    (∀ (env : GitEnv) (bareDir : String) (ttl : Int) (removeAll : Bool) (wts : List Worktree),
      env.worktreeList bareDir = Except.ok wts →
      (∀ p, env.worktreeRemove bareDir p true = Except.ok ()) →
      env.removeAllDir bareDir = Except.ok () →
      cleanBareRepo env bareDir ttl removeAll true =
        (Except.ok ((wts.filter (fun wt => wt.path != bareDir &&
          shouldRemoveWt env ttl removeAll wt)).map Worktree.path),
         [Call.worktreeList bareDir]) ∧
      (cleanBareRepo env bareDir ttl removeAll false).1 =
        Except.ok ((wts.filter (fun wt => wt.path != bareDir &&
          shouldRemoveWt env ttl removeAll wt)).map Worktree.path) ∧
      ((cleanBareRepo env bareDir ttl removeAll false).2.filter isWtRemoveCall) =
        ((wts.filter (fun wt => wt.path != bareDir &&
          shouldRemoveWt env ttl removeAll wt)).map
            (fun wt => Call.worktreeRemove bareDir wt.path true)) ∧
      (Call.removeAllDir bareDir ∈ (cleanBareRepo env bareDir ttl removeAll false).2 ↔
        ∀ wt ∈ wts, wt.path = bareDir ∨ shouldRemoveWt env ttl removeAll wt = true)) := by
  refine ⟨cleanTemp_dry_no_removal, ?_⟩
  intro env bareDir ttl removeAll wts hl hrem hdel
  have hlive := cleanBareRepo_live_eq env bareDir ttl removeAll wts hl hrem hdel
  refine ⟨cleanBareRepo_dry_eq env bareDir ttl removeAll wts hl, ?_, ?_, ?_⟩
  · rw [hlive]
  · rw [hlive]
    simp only [List.filter_cons, List.filter_append]
    have h1 : isWtRemoveCall (Call.worktreeList bareDir) = false := rfl
    rw [h1]
    simp only [Bool.false_eq_true, if_false]
    have h3 : ((wts.filter (fun wt => wt.path != bareDir &&
        shouldRemoveWt env ttl removeAll wt)).map
          (fun wt => Call.worktreeRemove bareDir wt.path true)).filter isWtRemoveCall =
        (wts.filter (fun wt => wt.path != bareDir &&
          shouldRemoveWt env ttl removeAll wt)).map
            (fun wt => Call.worktreeRemove bareDir wt.path true) := by
      rw [List.filter_eq_self]
      intro a ha
      rcases List.mem_map.mp ha with ⟨wt, _, hwt⟩
      rw [← hwt]
      rfl
    rw [h3]
    by_cases hz : ((wts.filter (fun wt => wt.path != bareDir &&
        !((wts.filter (fun wt => wt.path != bareDir &&
          shouldRemoveWt env ttl removeAll wt)).map Worktree.path).contains
            wt.path)).length == 0) = true
    · rw [if_pos hz]
      simp [isWtRemoveCall]
    · rw [if_neg hz]
      simp
  · rw [hlive]
    by_cases hz : ((wts.filter (fun wt => wt.path != bareDir &&
        !((wts.filter (fun wt => wt.path != bareDir &&
          shouldRemoveWt env ttl removeAll wt)).map Worktree.path).contains
            wt.path)).length == 0) = true
    · refine iff_of_true ?_ ((remaining_zero_iff env bareDir ttl removeAll wts).mp hz)
      rw [if_pos hz]
      simp
    · refine iff_of_false ?_
        (fun hall => hz ((remaining_zero_iff env bareDir ttl removeAll wts).mpr hall))
      rw [if_neg hz, List.append_nil]
      intro hcon
      rcases List.mem_cons.mp hcon with hx | hx
      · cases hx
      · rcases List.mem_map.mp hx with ⟨wt, _, hwt⟩
        cases hwt

/-- Listing of the witness bare repository: the bare directory itself, one
stale worktree and one fresh worktree. -/
def wtsC : List Worktree :=
  [{ path := "tmp/octo-repo.git", branch := "" },
   { path := "tmp/octo-repo-pr-1-old", branch := "refs/heads/pr/1/old" },
   { path := "tmp/octo-repo-pr-2-new", branch := "refs/heads/pr/2/new" }]

/-- Oracle for the cleanup witness: the stale worktree is 100 time units old,
the fresh one 10, against a ttl of 50. -/
def cleanEnv : GitEnv :=
  { freshEnv with
    worktreeList := fun _ => Except.ok wtsC
    statMTime := fun p => if p == "tmp/octo-repo-pr-1-old" then some 0 else some 90
    now := 100 }

/-- C9 witness: the cleanup theorem applied to the concrete listing. -/
theorem clean_temp_c9_witness :
    ((CleanTemp cleanEnv "tmp" 50 false true).2.filter isRemovalCall) = [] ∧
    (cleanBareRepo cleanEnv "tmp/octo-repo.git" 50 false true =
      (Except.ok ((wtsC.filter (fun wt => wt.path != "tmp/octo-repo.git" &&
        shouldRemoveWt cleanEnv 50 false wt)).map Worktree.path),
       [Call.worktreeList "tmp/octo-repo.git"]) ∧
     (cleanBareRepo cleanEnv "tmp/octo-repo.git" 50 false false).1 =
       Except.ok ((wtsC.filter (fun wt => wt.path != "tmp/octo-repo.git" &&
         shouldRemoveWt cleanEnv 50 false wt)).map Worktree.path) ∧
     ((cleanBareRepo cleanEnv "tmp/octo-repo.git" 50 false false).2.filter isWtRemoveCall) =
       ((wtsC.filter (fun wt => wt.path != "tmp/octo-repo.git" &&
         shouldRemoveWt cleanEnv 50 false wt)).map
           (fun wt => Call.worktreeRemove "tmp/octo-repo.git" wt.path true)) ∧
     (Call.removeAllDir "tmp/octo-repo.git" ∈
         (cleanBareRepo cleanEnv "tmp/octo-repo.git" 50 false false).2 ↔
       ∀ wt ∈ wtsC, wt.path = "tmp/octo-repo.git" ∨
         shouldRemoveWt cleanEnv 50 false wt = true)) :=
  ⟨clean_temp_c9.1 cleanEnv "tmp" 50 false,
   clean_temp_c9.2 cleanEnv "tmp/octo-repo.git" 50 false wtsC rfl (fun _ => rfl) rfl⟩
